import Mathlib

/-!
# Verification of the tsch-sim experiment-campaign scripts

Shallow embedding of the topology-generation and metric-aggregation pipeline
of the tsch-sim example scripts:

* `examples/niharika-ttp-smart-home/experiment.py` (namespace `SmartHome`),
* `examples/niharika-ttp-smart-home/generate-network-with-mobility.py`
  (namespace `Mobility`),
* `examples/result-visualization/experiment.py` (namespace `ResultVis`).

Modelling conventions:

* Node positions are computed in Python with `round(R*cos(...))` etc. on
  floating-point values.  The scripts only ever reuse such a value through the
  very same syntactic expression, which deterministically yields the same
  float, so the integer results of those rounded trigonometric expressions are
  abstracted as oracle parameters (`relXY`, `memXY`, `statXY`): one parameter
  per distinct source expression.  All theorems below are universally
  quantified over these oracles, so nothing proved depends on float values.
* Python numbers in the result trees are modelled as `ℚ`; JSON `null` is
  `Option.none`.  A missing dictionary key (Python `KeyError`), `min`/`max`
  of an empty sequence (`ValueError`), division by `len(...) = 0`
  (`ZeroDivisionError`) and arithmetic on `None` (`TypeError`) abort the
  script; fallible computations therefore return `Option`, with `none`
  standing for an uncaught exception.
* Python `dict`s are modelled as association lists with unique keys, updated
  in insertion order, exactly as `dict` assignment behaves (`setOpt`).
* File contents are passed as values: a template file that cannot be read is
  `Option.none`, reading a present file yields `some text`.
-/

/-- One entry of the generated `POSITIONS` list: `"ID": id, "X": x, "Y": y`. -/
structure Position where
  id : ℕ
  x : ℤ
  y : ℤ
deriving DecidableEq

/-- One entry of the static `CONNECTIONS` list:
`"FROM_ID": fromId, "TO_ID": toId, "RSSI": rssi, "LINK_QUALITY": q,
"LINK_MODEL": "Fixed"`. -/
structure Conn where
  fromId : ℕ
  toId : ℕ
  rssi : ℤ
  linkQuality : ℚ
deriving DecidableEq

/-- A connection entry of the mobility script: either an explicit fixed link,
a node-type UDGM rule, or a node-type-pair UDGM rule. -/
inductive MLink where
  | fixedLink (fromId toId : ℕ) (rssi : ℤ) (linkQuality : ℚ)
  | nodeTypeRule (nodeType : String)
  | typePairRule (fromType toType : String)
deriving DecidableEq

/-- A value stored in an `Experiment.options` dict: a string, an int, or one
of the structured topology lists the generators put there (Python keeps the
serialized string; we keep the structured list it serializes). -/
inductive OptValue where
  | s (v : String)
  | n (v : ℤ)
  | conns (v : List Conn)
  | posns (v : List Position)
  | links (v : List MLink)
  | emptyList
deriving DecidableEq

/-- Python `dict` assignment `m[k] = v` on an insertion-ordered association
list with unique keys: replace in place if the key exists, else append. -/
def setOpt : List (String × OptValue) → String → OptValue → List (String × OptValue)
  | [], k, v => [(k, v)]
  | kv :: rest, k, v =>
    if kv.1 = k then (k, v) :: rest else kv :: setOpt rest k v

/-- `metricName ↦ value` of one node's statistics row (`none` = JSON null). -/
abbrev MetricMap := List (String × Option ℚ)

/-- `nodeName ↦ statistics` of one run. -/
abbrev RunResults := List (String × MetricMap)

/-- `runName ↦ run results`: the loaded `stats_merged.json` of an experiment. -/
abbrev Results := List (String × RunResults)

/-- The Python membership test `node in ["global-stats", "1"]` used to skip
the global-summary row and the gateway row. -/
def reserved_node (node : String) : Prop := node = "global-stats" ∨ node = "1"

instance (node : String) : Decidable (reserved_node node) := by
  unfold reserved_node
  infer_instance

/-- `"PDR" in title` on the underlying character list. -/
def contains_PDR_chars : List Char → Bool
  | 'P' :: 'D' :: 'R' :: _ => true
  | _ :: rest => contains_PDR_chars rest
  | [] => false

/-- Python substring test `"PDR" in title`. -/
def title_has_PDR (title : String) : Bool := contains_PDR_chars title.data

/-- A value of the options dict at the point `generate_config_file` consumes
it: Python strings, ints and bools (every other value has been serialized to
a string by then). -/
inductive TmplValue where
  | s (v : String)
  | n (v : ℤ)
  | b (v : Bool)
deriving DecidableEq

/-- Python `'\n' in value`. -/
def has_newline (s : String) : Bool := s.data.any fun c => c = '\n'

/-- The value formatting of `generate_config_file`: newline-free strings are
quoted, other values go through `str(...)` with `True`/`False` lowered. -/
def format_value : TmplValue → String
  | .s v => if has_newline v then v else "\"" ++ v ++ "\""
  | .n v => toString v
  | .b v => if v then "true" else "false"

/-- Replace every (non-overlapping, leftmost-first) occurrence of the pattern
`p :: ps` by `sub`, as Python `str.replace` does.  The recursion consumes at
least one character per step, so it is driven by a structural fuel argument
(always called with `fuel = length of the text`, which suffices). -/
def replaceAux (p : Char) (ps sub : List Char) : ℕ → List Char → List Char
  | 0, l => l
  | _ + 1, [] => []
  | fuel + 1, c :: rest =>
    if (p :: ps).isPrefixOf (c :: rest) then
      sub ++ replaceAux p ps sub fuel (rest.drop ps.length)
    else
      c :: replaceAux p ps sub fuel rest

/-- Python `s.replace(old, sub)` (our pattern strings `"%KEY%"` are never
empty; the empty-pattern case is never reached and returns `s` unchanged). -/
def py_replace (s old sub : String) : String :=
  match old.data with
  | [] => s
  | p :: ps => ⟨replaceAux p ps sub.data s.data.length s.data⟩

/-- The substitution loop of `generate_config_file`: for every option key,
replace every occurrence of `%KEY%` in the template text by the formatted
value. -/
def render_template (template : String) (options : List (String × TmplValue)) :
    String :=
  options.foldl
    (fun contents kv => py_replace contents ("%" ++ kv.1 ++ "%")
      (format_value kv.2))
    template

/-! ## `SmartHome`: examples/niharika-ttp-smart-home/experiment.py -/

namespace SmartHome

def TTP_TO_GATEWAY_LINK_QUALITY : ℚ := 9 / 10

def CLUSTER_TO_TTP_LINK_QUALITY : ℚ := 9 / 10

def CLUSTER_INTERNAL_LINK_QUALITY : ℚ := 9 / 10

def DEFAULT_RSSI : ℤ := -80

def SIM_DURATION_SEC : ℤ := 3600

/-- NodeId of member `j` of cluster `i`:
`2 + num_clusters + i * num_per_cluster + j`, as written inline in
`generate_connections` and `generate_positions`. -/
def member_id (nc npc i j : ℕ) : ℕ := 2 + nc + i * npc + j

/-- `generate_positions(num_clusters, num_per_cluster)` of experiment.py.
`relXY i` is the rounded relay point
`(round(150*cos(2π(i+1)/nc)), round(150*sin(2π(i+1)/nc)))` and `memXY i j`
the rounded member point
`(round(40*cos(2π(j+1)/npc) + 250*cos(2π(i+1)/nc)), round(...sin...))`;
both are abstract oracles (see the module docstring). -/
def generate_positions (nc npc : ℕ) (relXY : ℕ → ℤ × ℤ)
    (memXY : ℕ → ℕ → ℤ × ℤ) : List Position :=
  ⟨1, 0, 0⟩ ::
    ((List.range nc).map fun i => ⟨i + 2, (relXY i).1, (relXY i).2⟩) ++
    ((List.range nc).flatMap fun i =>
      (List.range npc).map fun j =>
        ⟨member_id nc npc i j, (memXY i j).1, (memXY i j).2⟩)

/-- `generate_connections(num_clusters, num_per_cluster)` of experiment.py:
gateway↔relay links, relay↔member links, and both directions of every
member pair `j < k` inside one cluster. -/
def generate_connections (nc npc : ℕ) : List Conn :=
  ((List.range nc).flatMap fun i =>
    [⟨1, i + 2, DEFAULT_RSSI, TTP_TO_GATEWAY_LINK_QUALITY⟩,
     ⟨i + 2, 1, DEFAULT_RSSI, TTP_TO_GATEWAY_LINK_QUALITY⟩]) ++
  ((List.range nc).flatMap fun i =>
    (List.range npc).flatMap fun j =>
      [⟨i + 2, member_id nc npc i j, DEFAULT_RSSI, CLUSTER_TO_TTP_LINK_QUALITY⟩,
       ⟨member_id nc npc i j, i + 2, DEFAULT_RSSI, CLUSTER_TO_TTP_LINK_QUALITY⟩]) ++
  ((List.range nc).flatMap fun i =>
    (List.range npc).flatMap fun j =>
      (List.range' (j + 1) (npc - (j + 1))).flatMap fun k =>
        [⟨member_id nc npc i j, member_id nc npc i k,
          DEFAULT_RSSI, CLUSTER_INTERNAL_LINK_QUALITY⟩,
         ⟨member_id nc npc i k, member_id nc npc i j,
          DEFAULT_RSSI, CLUSTER_INTERNAL_LINK_QUALITY⟩])

/-- Number of directed links from node `a` to node `b` in the generated
connection list. -/
def pair_count (nc npc a b : ℕ) : ℕ :=
  ((generate_connections nc npc).map fun c => (c.fromId, c.toId)).count (a, b)

/-- The `(FROM_ID, TO_ID)` pairs of the gateway↔relay block of
`generate_connections`. -/
def gw_pairs (nc : ℕ) : List (ℕ × ℕ) :=
  (List.range nc).flatMap fun i => [(1, i + 2), (i + 2, 1)]

/-- The `(FROM_ID, TO_ID)` pairs of the relay↔member block of
`generate_connections`. -/
def relay_member_pairs (nc npc : ℕ) : List (ℕ × ℕ) :=
  (List.range nc).flatMap fun i =>
    (List.range npc).flatMap fun j =>
      [(i + 2, member_id nc npc i j), (member_id nc npc i j, i + 2)]

/-- The `(FROM_ID, TO_ID)` pairs of the intra-cluster member↔member block of
`generate_connections`. -/
def member_member_pairs (nc npc : ℕ) : List (ℕ × ℕ) :=
  (List.range nc).flatMap fun i =>
    (List.range npc).flatMap fun j =>
      (List.range' (j + 1) (npc - (j + 1))).flatMap fun k =>
        [(member_id nc npc i j, member_id nc npc i k),
         (member_id nc npc i k, member_id nc npc i j)]

/-- `Experiment.name` of `Experiment.__init__`. -/
def experiment_name (nc npc : ℕ) : String :=
  toString nc ++ "_clusters_" ++ toString npc ++ "_nodes"

/-- The `options` dict built by `Experiment.__init__(num_clusters,
num_per_cluster, options)`: duration and results dir, then the caller's
entries in order, then the topology-derived `NUM_NODES`, `CONNECTIONS` and
`POSITIONS` (which are written *after* the caller loop). -/
def experiment_options (nc npc : ℕ) (relXY : ℕ → ℤ × ℤ)
    (memXY : ℕ → ℕ → ℤ × ℤ) (options : List (String × OptValue)) :
    List (String × OptValue) :=
  let o1 := setOpt [] "SIMULATION_DURATION_SEC" (.n SIM_DURATION_SEC)
  let o2 := setOpt o1 "RESULTS_DIR" (.s ("./results-" ++ experiment_name nc npc))
  let o3 := options.foldl (fun m kv => setOpt m kv.1 kv.2) o2
  let o4 := setOpt o3 "NUM_NODES" (.s (toString (1 + nc + nc * npc)))
  let o5 := setOpt o4 "CONNECTIONS" (.conns (generate_connections nc npc))
  setOpt o5 "POSITIONS" (.posns (generate_positions nc npc relXY memXY))

/-- `generate_config_file(name, options)`: `none` for the template models an
unreadable template file (Python `open` raises and the error propagates);
otherwise the fully substituted text is written to `config-<name>.json`. -/
def generate_config_file (name : String) (template : Option String)
    (options : List (String × TmplValue)) : Option (String × String) :=
  template.map fun t => ("config-" ++ name ++ ".json", render_template t options)

/-- `mean(series)`: `0.0` on the empty sequence, else the arithmetic mean. -/
def mean (series : List ℚ) : ℚ :=
  if series.length = 0 then 0 else series.sum / (series.length : ℚ)

/-- The per-run node loop of `extract_metric`: skip `"global-stats"` and
`"1"`, look the metric up (a missing key is a `KeyError`, hence `none`),
substitute the default for null, and collect the node values in order. -/
def usable_run_results (metric : String) (default : ℚ) :
    RunResults → Option (List ℚ)
  | [] => some []
  | (node, stats) :: rest =>
    if reserved_node node then usable_run_results metric default rest
    else
      match stats.lookup metric with
      | none => none
      | some v =>
        (usable_run_results metric default rest).map fun l => v.getD default :: l

/-- The per-experiment run loop of `extract_metric`: skip the reserved
`"aggregate-stats"` run, aggregate each remaining run's node values. -/
def extract_metric_exp (metric : String) (default : ℚ) (agg : List ℚ → ℚ) :
    Results → Option (List ℚ)
  | [] => some []
  | (run, rr) :: rest =>
    if run = "aggregate-stats" then extract_metric_exp metric default agg rest
    else
      match usable_run_results metric default rr with
      | none => none
      | some vals =>
        (extract_metric_exp metric default agg rest).map fun l => agg vals :: l

/-- `extract_metric(experiments, [metric, default], aggregate_function)`. -/
def extract_metric (exps : List Results) (metric : String) (default : ℚ)
    (agg : List ℚ → ℚ) : Option (List (List ℚ)) :=
  match exps with
  | [] => some []
  | e :: rest =>
    match extract_metric_exp metric default agg e with
    | none => none
    | some l => (extract_metric rest metric default agg).map fun ls => l :: ls

/-- Removing the rows that `extract_metric`/`extract_metrics` skip: the
`"aggregate-stats"` run and the `"global-stats"`/`"1"` node rows. -/
def prune (t : Results) : Results :=
  (t.filter fun r => !decide (r.1 = "aggregate-stats")).map fun r =>
    (r.1, r.2.filter fun nd => !decide (reserved_node nd.1))

/-- The per-run node loop of `extract_metrics`: same node filtering as
`usable_run_results` but two metrics collected in parallel and no default
substitution — a null value flows into the later arithmetic, which raises
in Python, hence `none` (as does a missing key). -/
def usable_run_results2 (m1 m2 : String) :
    RunResults → Option (List ℚ × List ℚ)
  | [] => some ([], [])
  | (node, stats) :: rest =>
    if reserved_node node then usable_run_results2 m1 m2 rest
    else
      match stats.lookup m1, stats.lookup m2 with
      | some (some v1), some (some v2) =>
        (usable_run_results2 m1 m2 rest).map fun p => (v1 :: p.1, v2 :: p.2)
      | _, _ => none

/-- The per-experiment run loop of `extract_metrics`: the two per-run
node-level sequences are each reduced with the aggregation function. -/
def extract_metrics_exp (m1 m2 : String) (agg : List ℚ → ℚ) :
    Results → Option (List ℚ × List ℚ)
  | [] => some ([], [])
  | (run, rr) :: rest =>
    if run = "aggregate-stats" then extract_metrics_exp m1 m2 agg rest
    else
      match usable_run_results2 m1 m2 rr with
      | none => none
      | some (l1, l2) =>
        (extract_metrics_exp m1 m2 agg rest).map fun p =>
          (agg l1 :: p.1, agg l2 :: p.2)

/-- `extract_metrics(experiments, [m1, m2, function], aggregate_function)`:
per experiment, zip the two per-run aggregate sequences with the combine
function. -/
def extract_metrics (exps : List Results) (m1 m2 : String)
    (combine : ℚ → ℚ → ℚ) (agg : List ℚ → ℚ) : Option (List (List ℚ)) :=
  match exps with
  | [] => some []
  | e :: rest =>
    match extract_metrics_exp m1 m2 agg e with
    | none => none
    | some (l1, l2) =>
      (extract_metrics rest m1 m2 combine agg).map fun ls =>
        List.zipWith combine l1 l2 :: ls

/-- An independent single-metric collector with the same node filtering as
`usable_run_results2` (no default substitution), used to state that
`extract_metrics` collects two *parallel* sequences. -/
def collect_raw (m : String) : RunResults → Option (List ℚ)
  | [] => some []
  | (node, stats) :: rest =>
    if reserved_node node then collect_raw m rest
    else
      match stats.lookup m with
      | some (some v) => (collect_raw m rest).map fun l => v :: l
      | _ => none

/-- The PDR combine function passed to `extract_metrics` in `main`:
`lambda x, y: 100.0 * (1.0 - x / (x + y)) if x + y else 0`. -/
def pdr_combine (x y : ℚ) : ℚ :=
  if x + y ≠ 0 then 100 * (1 - x / (x + y)) else 0

/-- The per-experiment reduction of `plot`: `sum(result)/len(result)`,
`min(result)`, `max(result)`; an empty per-experiment sequence raises
(`ZeroDivisionError`), hence `none`. -/
def exp_stats : List ℚ → Option (ℚ × ℚ × ℚ)
  | [] => none
  | x :: xs =>
    some (((x :: xs).sum) / (((x :: xs).length : ℕ) : ℚ),
      xs.foldl min x, xs.foldl max x)

/-- The `for result in results` loop of `plot`: the `(mean, min, max)`
triples, experiment by experiment. -/
def plot_stats : List (List ℚ) → Option (List (ℚ × ℚ × ℚ))
  | [] => some []
  | r :: rest =>
    match exp_stats r with
    | none => none
    | some s => (plot_stats rest).map fun st => s :: st

/-- The y-axis limits `plot` passes to `pl.ylim`:
`total_min_value = floor(min(min_values)) - 1`,
`total_max_value = ceil(max(max_values)) + 1`, and the lower bound is
`total_min_value` only when `"PDR" in title`, else `0`. -/
def plot_bounds (title : String) (results : List (List ℚ)) : Option (ℤ × ℤ) :=
  match plot_stats results with
  | none => none
  | some stats =>
    match (stats.map fun s => s.2.1).min?, (stats.map fun s => s.2.2).max? with
    | some mn, some mx =>
      some (if title_has_PDR title then ⌊mn⌋ - 1 else 0, ⌈mx⌉ + 1)
    | _, _ => none

/-- `min_values_yerr` of `plot`: per experiment `mean - min`. -/
def min_values_yerr (results : List (List ℚ)) : Option (List ℚ) :=
  (plot_stats results).map fun st => st.map fun s => s.1 - s.2.1

/-- `max_values_yerr` of `plot`: per experiment `max - mean`. -/
def max_values_yerr (results : List (List ℚ)) : Option (List ℚ) :=
  (plot_stats results).map fun st => st.map fun s => s.2.2 - s.1

end SmartHome

/-! ## `Mobility`: examples/niharika-ttp-smart-home/generate-network-with-mobility.py -/

namespace Mobility

def TTP_TO_GATEWAY_LINK_QUALITY : ℚ := 9 / 10

def DEFAULT_RSSI : ℤ := -80

/-- `get_num_mobile_per_cluster(num_total)`: returns
`(num_mobile, num_static)` with `num_static = num_total * 2 // 3`. -/
def get_num_mobile_per_cluster (numTotal : ℕ) : ℕ × ℕ :=
  let numStatic := numTotal * 2 / 3
  (numTotal - numStatic, numStatic)

/-- `generate_connections(num_clusters, num_per_cluster)` of the mobility
script: explicit gateway↔relay fixed links followed by the eight UDGM
type-level rules (the second parameter is unused, as in the source). -/
def generate_connections (nc npc : ℕ) : List MLink :=
  ((List.range nc).flatMap fun i =>
    [.fixedLink 1 (i + 2) DEFAULT_RSSI TTP_TO_GATEWAY_LINK_QUALITY,
     .fixedLink (i + 2) 1 DEFAULT_RSSI TTP_TO_GATEWAY_LINK_QUALITY]) ++
  [.nodeTypeRule "mobile_leaf_nodes",
   .nodeTypeRule "static_leaf_nodes",
   .typePairRule "static_leaf_nodes" "router_nodes",
   .typePairRule "router_nodes" "static_leaf_nodes",
   .typePairRule "mobile_leaf_nodes" "router_nodes",
   .typePairRule "router_nodes" "mobile_leaf_nodes",
   .typePairRule "mobile_leaf_nodes" "static_leaf_nodes",
   .typePairRule "static_leaf_nodes" "mobile_leaf_nodes"]

/-- The `next_id` counter of the mobility `generate_positions`: ids are
assigned by declaration order, starting from `start`. -/
def withIdsFrom : ℕ → List (ℤ × ℤ) → List Position
  | _, [] => []
  | start, c :: rest => ⟨start, c.1, c.2⟩ :: withIdsFrom (start + 1) rest

/-- `generate_positions(num_clusters, num_per_cluster)` of the mobility
script.  `relXY i` is the rounded relay point
`(round(500*cos(2π(i+1)/nc)), round(500*sin(2π(i+1)/nc)))` — the mobile
members reuse exactly this expression, so they share the oracle — and
`statXY i j` is the rounded static-member point
`(round(40*cos(2π(j+1)/ns) + 500*cos(2π(i+1)/nc)), round(...sin...))`. -/
def generate_positions (nc npc : ℕ) (relXY : ℕ → ℤ × ℤ)
    (statXY : ℕ → ℕ → ℤ × ℤ) : List Position :=
  let nm := (get_num_mobile_per_cluster npc).1
  let ns := (get_num_mobile_per_cluster npc).2
  withIdsFrom 1
    ((0, 0) ::
      ((List.range nc).map relXY ++
       (((List.range nc).flatMap fun i => (List.range ns).map (statXY i)) ++
        ((List.range nc).flatMap fun i => (List.range nm).map fun _ => relXY i))))

/-- `Experiment.name` of the mobility script. -/
def experiment_name (nc npc : ℕ) : String :=
  toString nc ++ "_clusters_" ++ toString npc ++ "_nodes_mobile"

/-- The `options` dict built by the mobility `Experiment.__init__`: results
dir, the `DEFAULT_OPTIONS` entries in their literal order, the caller's
entries in order, then the topology-derived node counts, `CONNECTIONS` and
`POSITIONS` (written *after* the caller loop). -/
def experiment_options (nc npc : ℕ) (relXY : ℕ → ℤ × ℤ)
    (statXY : ℕ → ℕ → ℤ × ℤ) (options : List (String × OptValue)) :
    List (String × OptValue) :=
  let o1 := setOpt [] "RESULTS_DIR" (.s ("./results-" ++ experiment_name nc npc))
  let o2 := setOpt o1 "NUM_ROUTER_NODES" (.n 1)
  let o3 := setOpt o2 "NUM_STATIC_LEAF_NODES" (.n 1)
  let o4 := setOpt o3 "NUM_MOBILE_LEAF_NODES" (.n 1)
  let o5 := setOpt o4 "RANGE_X" (.n 100)
  let o6 := setOpt o5 "RANGE_Y" (.n 100)
  let o7 := setOpt o6 "CONNECTIONS" .emptyList
  let o8 := setOpt o7 "SIMULATION_DURATION_SEC" (.n 3600)
  let o9 := options.foldl (fun m kv => setOpt m kv.1 kv.2) o8
  let nm := (get_num_mobile_per_cluster npc).1
  let ns := (get_num_mobile_per_cluster npc).2
  let o10 := setOpt o9 "NUM_ROUTER_NODES" (.s (toString (1 + nc)))
  let o11 := setOpt o10 "NUM_STATIC_LEAF_NODES" (.s (toString (nc * ns)))
  let o12 := setOpt o11 "NUM_MOBILE_LEAF_NODES" (.s (toString (nc * nm)))
  let o13 := setOpt o12 "CONNECTIONS" (.links (generate_connections nc npc))
  setOpt o13 "POSITIONS" (.posns (generate_positions nc npc relXY statXY))

end Mobility

/-! ## `ResultVis`: examples/result-visualization/experiment.py -/

namespace ResultVis

/-- The per-run node loop of `extract_metric` in the result-visualization
script: same skipping and default substitution as the smart-home variant,
but accumulating `total` and `num_nodes` directly. -/
def run_totals (metric : String) (default : ℚ) :
    RunResults → ℚ → ℕ → Option (ℚ × ℕ)
  | [], total, num => some (total, num)
  | (node, stats) :: rest, total, num =>
    if reserved_node node then run_totals metric default rest total num
    else
      match stats.lookup metric with
      | none => none
      | some v => run_totals metric default rest (total + v.getD default) (num + 1)

/-- The per-experiment run loop of the result-visualization `extract_metric`:
note that it does *not* skip any run, and divides by `num_nodes`, raising
`ZeroDivisionError` (hence `none`) when a run has no usable node rows. -/
def extract_metric_exp (metric : String) (default : ℚ) :
    Results → Option (List ℚ)
  | [] => some []
  | (_, rr) :: rest =>
    match run_totals metric default rr 0 0 with
    | none => none
    | some (total, num) =>
      if num = 0 then none
      else (extract_metric_exp metric default rest).map fun l =>
        total / (num : ℚ) :: l

/-- `extract_metric(experiments, [metric, default])` of the
result-visualization script. -/
def extract_metric (exps : List Results) (metric : String) (default : ℚ) :
    Option (List (List ℚ)) :=
  match exps with
  | [] => some []
  | e :: rest =>
    match extract_metric_exp metric default e with
    | none => none
    | some l => (extract_metric rest metric default).map fun ls => l :: ls

end ResultVis

/-! ## Generic list helpers used by the counting and indexing proofs -/

theorem sum_map_eq_zero {α : Type} (l : List α) (g : α → ℕ)
    (hz : ∀ a ∈ l, g a = 0) : (l.map g).sum = 0 := by
  induction l with
  | nil => rfl
  | cons b t ih =>
    simp only [List.map_cons, List.sum_cons]
    rw [hz b (by simp), ih fun a ha => hz a (by simp [ha])]

theorem sum_map_eq_of_single {α : Type} (l : List α) (g : α → ℕ) (a0 : α)
    (hnd : l.Nodup) (hmem : a0 ∈ l)
    (hz : ∀ a ∈ l, a ≠ a0 → g a = 0) : (l.map g).sum = g a0 := by
  induction l with
  | nil => cases hmem
  | cons b t ih =>
    simp only [List.map_cons, List.sum_cons]
    rcases List.mem_cons.mp hmem with h | h
    · subst h
      have : (t.map g).sum = 0 := by
        refine sum_map_eq_zero t g fun a ha => ?_
        have : a ≠ a0 := fun he => (List.nodup_cons.mp hnd).1 (he ▸ ha)
        exact hz a (by simp [ha]) this
      simp [this]
    · have hb : g b = 0 := by
        refine hz b (by simp) fun he => ?_
        exact (List.nodup_cons.mp hnd).1 (he ▸ h)
      rw [hb, ih (List.nodup_cons.mp hnd).2 h
        fun a ha hne => hz a (by simp [ha]) hne]
      simp

theorem flatMap_congr_fn {α β : Type} (l : List α) (f g : α → List β)
    (h : ∀ a ∈ l, f a = g a) : l.flatMap f = l.flatMap g := by
  induction l with
  | nil => rfl
  | cons b t ih =>
    simp only [List.flatMap_cons]
    rw [h b (by simp), ih fun a ha => h a (by simp [ha])]

theorem flatMap_const_length {β : Type} (m c : ℕ) (f : ℕ → List β)
    (hf : ∀ i, i < m → (f i).length = c) :
    ((List.range m).flatMap f).length = m * c := by
  induction m with
  | zero => simp
  | succ n ih =>
    rw [List.range_succ, List.flatMap_append, List.length_append,
      ih fun i hi => hf i (Nat.lt_succ_of_lt hi)]
    simp only [List.flatMap_cons, List.flatMap_nil, List.append_nil]
    rw [hf n (Nat.lt_succ_self n)]
    ring

theorem flatMap_const_length_getElem? {β : Type} (m c : ℕ) (f : ℕ → List β)
    (hf : ∀ i, i < m → (f i).length = c) (i j : ℕ) (hi : i < m) (hj : j < c) :
    ((List.range m).flatMap f)[i * c + j]? = (f i)[j]? := by
  induction m with
  | zero => cases hi
  | succ n ih =>
    rw [List.range_succ, List.flatMap_append]
    simp only [List.flatMap_cons, List.flatMap_nil, List.append_nil]
    have hlen : ((List.range n).flatMap f).length = n * c :=
      flatMap_const_length n c f fun a ha => hf a (Nat.lt_succ_of_lt ha)
    rcases Nat.lt_or_ge i n with h | h
    · have hidx : i * c + j < n * c := by
        have h1 : i * c + j < (i + 1) * c := by
          rw [Nat.succ_mul]; omega
        have h2 : (i + 1) * c ≤ n * c := Nat.mul_le_mul_right c h
        omega
      rw [List.getElem?_append, if_pos (by rw [hlen]; exact hidx)]
      exact ih (fun a ha => hf a (Nat.lt_succ_of_lt ha)) h
    · have he : i = n := by omega
      subst he
      rw [List.getElem?_append_right (by rw [hlen]; exact Nat.le_add_right _ _)]
      rw [hlen]
      congr 1
      omega

theorem flatMap_map_range_eq_range' (m c k : ℕ) :
    ((List.range m).flatMap fun i => (List.range c).map fun j => k + i * c + j)
      = List.range' k (m * c) := by
  induction m with
  | zero => simp
  | succ n ih =>
    rw [List.range_succ, List.flatMap_append, ih]
    simp only [List.flatMap_cons, List.flatMap_nil, List.append_nil]
    have h1 : ((List.range c).map fun j => k + n * c + j)
        = List.range' (k + n * c) c := by
      rw [List.range'_eq_map_range]
    rw [h1]
    have h2 := List.range'_append k (n * c) c 1
    simp only [one_mul] at h2
    rw [h2]
    congr 1
    ring

/-! ## C1 -/

/-- C1: for every `clusterCount ≥ 1` and `perClusterCount ≥ 0`, the static
position list has exactly `1 + nc + nc*npc` entries, its NodeIds are the
contiguous strictly increasing sequence `1, 2, ...` (`List.range' 1 _`), and
the numbering is gateway = 1, relay `i` = `i+2`, member `j` of cluster `i` =
`2 + nc + i*npc + j`. -/
theorem c1_static_positions_shape (nc npc : ℕ) (relXY : ℕ → ℤ × ℤ)
    (memXY : ℕ → ℕ → ℤ × ℤ) (hnc : 1 ≤ nc) :
    (SmartHome.generate_positions nc npc relXY memXY).length
        = 1 + nc + nc * npc ∧
    (SmartHome.generate_positions nc npc relXY memXY).map Position.id
        = List.range' 1 (1 + nc + nc * npc) ∧
    (SmartHome.generate_positions nc npc relXY memXY)[0]? = some ⟨1, 0, 0⟩ ∧
    (∀ i, i < nc →
      (SmartHome.generate_positions nc npc relXY memXY)[1 + i]?
        = some ⟨i + 2, (relXY i).1, (relXY i).2⟩) ∧
    (∀ i j, i < nc → j < npc →
      (SmartHome.generate_positions nc npc relXY memXY)[1 + nc + i * npc + j]?
        = some ⟨SmartHome.member_id nc npc i j,
                (memXY i j).1, (memXY i j).2⟩) := by
  have hmemlen : ∀ i, i < nc →
      (((List.range npc).map fun j =>
        (⟨SmartHome.member_id nc npc i j, (memXY i j).1, (memXY i j).2⟩ :
          Position)).length) = npc := by
    intro i _
    simp
  refine ⟨?_, ?_, ?_, ?_, ?_⟩
  · simp only [SmartHome.generate_positions, List.length_append,
      List.length_cons, List.length_map, List.length_range]
    rw [flatMap_const_length nc npc _ hmemlen]
    omega
  · simp only [SmartHome.generate_positions, List.map_cons, List.map_append,
      List.map_map, List.map_flatMap]
    have hrel : ((List.range nc).map
        (Position.id ∘ fun i =>
          (⟨i + 2, (relXY i).1, (relXY i).2⟩ : Position)))
        = List.range' 2 nc := by
      rw [List.range'_eq_map_range]
      apply List.map_congr_left
      intro a _
      simp [Nat.add_comm]
    have hmem : ((List.range nc).flatMap fun i =>
        (List.range npc).map
          (Position.id ∘ fun j =>
            (⟨SmartHome.member_id nc npc i j,
              (memXY i j).1, (memXY i j).2⟩ : Position)))
        = List.range' (2 + nc) (nc * npc) := by
      have heach : ∀ i, ((List.range npc).map
          (Position.id ∘ fun j =>
            (⟨SmartHome.member_id nc npc i j,
              (memXY i j).1, (memXY i j).2⟩ : Position)))
          = (List.range npc).map fun j => (2 + nc) + i * npc + j := by
        intro i
        apply List.map_congr_left
        intro a _
        simp [SmartHome.member_id]
      rw [flatMap_congr_fn _ _ _ fun i _ => heach i]
      exact flatMap_map_range_eq_range' nc npc (2 + nc)
    rw [hrel, hmem]
    have h0 : (1 :: List.range' 2 nc) = List.range' 1 (nc + 1) := by
      rw [List.range'_succ]
    rw [h0]
    have h2 := List.range'_append 1 (nc + 1) (nc * npc) 1
    simp only [one_mul] at h2
    have h3 : 2 + nc = 1 + (nc + 1) := by omega
    rw [h3, h2]
    congr 1
    omega
  · simp [SmartHome.generate_positions]
  · intro i hi
    simp only [SmartHome.generate_positions]
    have h1 : (1 + i) = i + 1 := by omega
    rw [h1, List.getElem?_append, if_pos
      (by simp only [List.length_cons, List.length_map, List.length_range]; omega)]
    simp only [List.getElem?_cons_succ]
    rw [List.getElem?_map, List.getElem?_range hi]
    rfl
  · intro i j hi hj
    simp only [SmartHome.generate_positions]
    have h1 : (1 + nc + i * npc + j) = (nc + 1) + (i * npc + j) := by omega
    rw [h1, List.getElem?_append_right
      (by simp only [List.length_cons, List.length_map, List.length_range]; omega)]
    simp only [List.length_cons, List.length_map, List.length_range]
    have h2 : nc + 1 + (i * npc + j) - (nc + 1) = i * npc + j := by omega
    rw [h2, flatMap_const_length_getElem? nc npc _ hmemlen i j hi hj]
    rw [List.getElem?_map, List.getElem?_range hj]
    rfl

/-- Witness for C1 at `nc = 2`, `npc = 2` with the all-zero coordinate oracle. -/
theorem c1_static_positions_shape_witness :
    (1 ≤ 2) ∧
    ((SmartHome.generate_positions 2 2 (fun _ => (0, 0))
        (fun _ _ => (0, 0))).length = 1 + 2 + 2 * 2 ∧
     (SmartHome.generate_positions 2 2 (fun _ => (0, 0))
        (fun _ _ => (0, 0))).map Position.id = List.range' 1 (1 + 2 + 2 * 2) ∧
     (SmartHome.generate_positions 2 2 (fun _ => (0, 0))
        (fun _ _ => (0, 0)))[0]? = some ⟨1, 0, 0⟩ ∧
     (∀ i, i < 2 →
       (SmartHome.generate_positions 2 2 (fun _ => (0, 0))
          (fun _ _ => (0, 0)))[1 + i]? = some ⟨i + 2, 0, 0⟩) ∧
     (∀ i j, i < 2 → j < 2 →
       (SmartHome.generate_positions 2 2 (fun _ => (0, 0))
          (fun _ _ => (0, 0)))[1 + 2 + i * 2 + j]?
         = some ⟨SmartHome.member_id 2 2 i j, 0, 0⟩)) :=
  ⟨by decide, c1_static_positions_shape 2 2 (fun _ => (0, 0))
    (fun _ _ => (0, 0)) (by decide)⟩

/-! ## C2 -/

theorem count_pair_two_eq_zero {β : Type} [BEq β] [LawfulBEq β] (p q t : β)
    (h1 : p ≠ t) (h2 : q ≠ t) : ([p, q]).count t = 0 := by
  simp [List.count_cons, h1, h2]

theorem count_pair_two_first {β : Type} [BEq β] [LawfulBEq β] (p q t : β)
    (h1 : p = t) (h2 : q ≠ t) : ([p, q]).count t = 1 := by
  simp [List.count_cons, h1, h2]

theorem count_pair_two_second {β : Type} [BEq β] [LawfulBEq β] (p q t : β)
    (h1 : p ≠ t) (h2 : q = t) : ([p, q]).count t = 1 := by
  simp [List.count_cons, h1, h2]

theorem count_flatMap_range_zero {β : Type} [BEq β] (n : ℕ)
    (f : ℕ → List β) (t : β) (h : ∀ a, a < n → (f a).count t = 0) :
    ((List.range n).flatMap f).count t = 0 := by
  rw [List.count_flatMap]
  refine sum_map_eq_zero _ _ ?_
  intro a ha
  simp only [Function.comp_apply]
  exact h a (List.mem_range.mp ha)

theorem count_flatMap_range_single {β : Type} [BEq β] (n : ℕ)
    (f : ℕ → List β) (t : β) (a0 : ℕ) (ha0 : a0 < n)
    (hz : ∀ a, a < n → a ≠ a0 → (f a).count t = 0) :
    ((List.range n).flatMap f).count t = (f a0).count t := by
  rw [List.count_flatMap]
  refine sum_map_eq_of_single _ _ a0 (List.nodup_range n)
    (List.mem_range.mpr ha0) ?_
  intro a ha hne
  simp only [Function.comp_apply]
  exact hz a (List.mem_range.mp ha) hne

theorem count_flatMap_range'_zero {β : Type} [BEq β] (s n : ℕ)
    (f : ℕ → List β) (t : β)
    (h : ∀ a, s ≤ a → a < s + n → (f a).count t = 0) :
    ((List.range' s n).flatMap f).count t = 0 := by
  rw [List.count_flatMap]
  refine sum_map_eq_zero _ _ ?_
  intro a ha
  simp only [Function.comp_apply]
  obtain ⟨h1, h2⟩ := List.mem_range'_1.mp ha
  exact h a h1 h2

theorem count_flatMap_range'_single {β : Type} [BEq β] (s n : ℕ)
    (f : ℕ → List β) (t : β) (a0 : ℕ) (hlo : s ≤ a0) (hhi : a0 < s + n)
    (hz : ∀ a, s ≤ a → a < s + n → a ≠ a0 → (f a).count t = 0) :
    ((List.range' s n).flatMap f).count t = (f a0).count t := by
  rw [List.count_flatMap]
  refine sum_map_eq_of_single _ _ a0 (List.nodup_range' s n)
    (List.mem_range'_1.mpr ⟨hlo, hhi⟩) ?_
  intro a ha hne
  simp only [Function.comp_apply]
  obtain ⟨h1, h2⟩ := List.mem_range'_1.mp ha
  exact hz a h1 h2 hne

theorem member_id_ge (nc npc i j : ℕ) :
    2 + nc ≤ SmartHome.member_id nc npc i j := by
  unfold SmartHome.member_id
  omega

theorem member_id_inj (nc npc i i2 j k : ℕ) (hj : j < npc) (hk : k < npc)
    (h : SmartHome.member_id nc npc i j = SmartHome.member_id nc npc i2 k) :
    i = i2 ∧ j = k := by
  unfold SmartHome.member_id at h
  have h' : i * npc + j = i2 * npc + k := by omega
  have hii : i = i2 := by
    rcases Nat.lt_trichotomy i i2 with hlt | he | hgt
    · exfalso
      have hle := Nat.mul_le_mul_right npc hlt
      rw [Nat.succ_mul] at hle
      omega
    · exact he
    · exfalso
      have hle := Nat.mul_le_mul_right npc hgt
      rw [Nat.succ_mul] at hle
      omega
  subst hii
  exact ⟨rfl, by omega⟩

theorem pairs_decomp (nc npc : ℕ) :
    ((SmartHome.generate_connections nc npc).map fun c => (c.fromId, c.toId))
      = SmartHome.gw_pairs nc ++ SmartHome.relay_member_pairs nc npc ++
        SmartHome.member_member_pairs nc npc := by
  unfold SmartHome.generate_connections SmartHome.gw_pairs
    SmartHome.relay_member_pairs SmartHome.member_member_pairs
  simp [List.map_flatMap]

theorem pair_count_decomp (nc npc a b : ℕ) :
    SmartHome.pair_count nc npc a b
      = (SmartHome.gw_pairs nc).count (a, b)
        + (SmartHome.relay_member_pairs nc npc).count (a, b)
        + (SmartHome.member_member_pairs nc npc).count (a, b) := by
  unfold SmartHome.pair_count
  rw [pairs_decomp, List.count_append, List.count_append]

theorem gw_pairs_count_to (nc r : ℕ) (hr : r < nc) :
    (SmartHome.gw_pairs nc).count (1, r + 2) = 1 := by
  unfold SmartHome.gw_pairs
  rw [count_flatMap_range_single nc _ _ r hr ?_]
  · apply count_pair_two_first
    · rfl
    · intro he
      injection he with h1 h2
      omega
  · intro a ha hne
    apply count_pair_two_eq_zero
    · intro he
      injection he with h1 h2
      omega
    · intro he
      injection he with h1 h2
      omega

theorem gw_pairs_count_from (nc r : ℕ) (hr : r < nc) :
    (SmartHome.gw_pairs nc).count (r + 2, 1) = 1 := by
  unfold SmartHome.gw_pairs
  rw [count_flatMap_range_single nc _ _ r hr ?_]
  · apply count_pair_two_second
    · intro he
      injection he with h1 h2
      omega
    · rfl
  · intro a ha hne
    apply count_pair_two_eq_zero
    · intro he
      injection he with h1 h2
      omega
    · intro he
      injection he with h1 h2
      omega

theorem gw_pairs_count_zero (nc a b : ℕ) (h : 2 + nc ≤ a ∨ 2 + nc ≤ b) :
    (SmartHome.gw_pairs nc).count (a, b) = 0 := by
  unfold SmartHome.gw_pairs
  apply count_flatMap_range_zero
  intro i hi
  apply count_pair_two_eq_zero
  · intro he
    injection he with h1 h2
    omega
  · intro he
    injection he with h1 h2
    omega

theorem rm_pairs_count_to (nc npc i j : ℕ) (hi : i < nc) (hj : j < npc) :
    (SmartHome.relay_member_pairs nc npc).count
      (i + 2, SmartHome.member_id nc npc i j) = 1 := by
  unfold SmartHome.relay_member_pairs
  rw [count_flatMap_range_single nc _ _ i hi ?_]
  · rw [count_flatMap_range_single npc _ _ j hj ?_]
    · apply count_pair_two_first
      · rfl
      · intro he
        injection he with h1 h2
        have := member_id_ge nc npc i j
        omega
    · intro a ha hne
      apply count_pair_two_eq_zero
      · intro he
        injection he with h1 h2
        obtain ⟨e1, e2⟩ := member_id_inj nc npc i i a j ha hj h2
        omega
      · intro he
        injection he with h1 h2
        have := member_id_ge nc npc i a
        omega
  · intro a ha hne
    apply count_flatMap_range_zero
    intro a2 ha2
    apply count_pair_two_eq_zero
    · intro he
      injection he with h1 h2
      omega
    · intro he
      injection he with h1 h2
      have := member_id_ge nc npc a a2
      omega

theorem rm_pairs_count_from (nc npc i j : ℕ) (hi : i < nc) (hj : j < npc) :
    (SmartHome.relay_member_pairs nc npc).count
      (SmartHome.member_id nc npc i j, i + 2) = 1 := by
  unfold SmartHome.relay_member_pairs
  rw [count_flatMap_range_single nc _ _ i hi ?_]
  · rw [count_flatMap_range_single npc _ _ j hj ?_]
    · apply count_pair_two_second
      · intro he
        injection he with h1 h2
        have := member_id_ge nc npc i j
        omega
      · rfl
    · intro a ha hne
      apply count_pair_two_eq_zero
      · intro he
        injection he with h1 h2
        have := member_id_ge nc npc i a
        omega
      · intro he
        injection he with h1 h2
        obtain ⟨e1, e2⟩ := member_id_inj nc npc i i a j ha hj h1
        omega
  · intro a ha hne
    apply count_flatMap_range_zero
    intro a2 ha2
    apply count_pair_two_eq_zero
    · intro he
      injection he with h1 h2
      have := member_id_ge nc npc a a2
      omega
    · intro he
      injection he with h1 h2
      obtain ⟨e1, e2⟩ := member_id_inj nc npc a i a2 j ha2 hj h1
      omega

theorem rm_pairs_count_zero_one (nc npc a b : ℕ) (h : a = 1 ∨ b = 1) :
    (SmartHome.relay_member_pairs nc npc).count (a, b) = 0 := by
  unfold SmartHome.relay_member_pairs
  apply count_flatMap_range_zero
  intro i hi
  apply count_flatMap_range_zero
  intro j hj
  apply count_pair_two_eq_zero
  · intro he
    injection he with h1 h2
    have := member_id_ge nc npc i j
    omega
  · intro he
    injection he with h1 h2
    have := member_id_ge nc npc i j
    omega

theorem rm_pairs_count_zero_members (nc npc a b : ℕ)
    (ha : 2 + nc ≤ a) (hb : 2 + nc ≤ b) :
    (SmartHome.relay_member_pairs nc npc).count (a, b) = 0 := by
  unfold SmartHome.relay_member_pairs
  apply count_flatMap_range_zero
  intro i hi
  apply count_flatMap_range_zero
  intro j hj
  apply count_pair_two_eq_zero
  · intro he
    injection he with h1 h2
    omega
  · intro he
    injection he with h1 h2
    omega

theorem rm_pairs_count_zero_cross_to (nc npc i2 i j : ℕ) (hi2 : i2 < nc)
    (hj : j < npc) (hne : i2 ≠ i) :
    (SmartHome.relay_member_pairs nc npc).count
      (i2 + 2, SmartHome.member_id nc npc i j) = 0 := by
  unfold SmartHome.relay_member_pairs
  apply count_flatMap_range_zero
  intro a ha
  apply count_flatMap_range_zero
  intro a2 ha2
  apply count_pair_two_eq_zero
  · intro he
    injection he with h1 h2
    obtain ⟨e1, e2⟩ := member_id_inj nc npc a i a2 j ha2 hj h2
    omega
  · intro he
    injection he with h1 h2
    have := member_id_ge nc npc a a2
    omega

theorem rm_pairs_count_zero_cross_from (nc npc i2 i j : ℕ) (hi2 : i2 < nc)
    (hj : j < npc) (hne : i2 ≠ i) :
    (SmartHome.relay_member_pairs nc npc).count
      (SmartHome.member_id nc npc i j, i2 + 2) = 0 := by
  unfold SmartHome.relay_member_pairs
  apply count_flatMap_range_zero
  intro a ha
  apply count_flatMap_range_zero
  intro a2 ha2
  apply count_pair_two_eq_zero
  · intro he
    injection he with h1 h2
    have := member_id_ge nc npc a a2
    omega
  · intro he
    injection he with h1 h2
    obtain ⟨e1, e2⟩ := member_id_inj nc npc a i a2 j ha2 hj h1
    omega

theorem mm_pairs_count_zero_low (nc npc a b : ℕ) (h : a < 2 + nc ∨ b < 2 + nc) :
    (SmartHome.member_member_pairs nc npc).count (a, b) = 0 := by
  unfold SmartHome.member_member_pairs
  apply count_flatMap_range_zero
  intro i hi
  apply count_flatMap_range_zero
  intro j hj
  apply count_flatMap_range'_zero
  intro k hk1 hk2
  apply count_pair_two_eq_zero
  · intro he
    injection he with h1 h2
    have g1 := member_id_ge nc npc i j
    have g2 := member_id_ge nc npc i k
    omega
  · intro he
    injection he with h1 h2
    have g1 := member_id_ge nc npc i j
    have g2 := member_id_ge nc npc i k
    omega

theorem mm_pairs_count_cross (nc npc i i2 j k : ℕ) (hj : j < npc)
    (hk : k < npc) (hne : i ≠ i2) :
    (SmartHome.member_member_pairs nc npc).count
      (SmartHome.member_id nc npc i j, SmartHome.member_id nc npc i2 k) = 0 := by
  unfold SmartHome.member_member_pairs
  apply count_flatMap_range_zero
  intro a ha
  apply count_flatMap_range_zero
  intro a2 ha2
  apply count_flatMap_range'_zero
  intro a3 h1a h2a
  have ha3np : a3 < npc := by omega
  apply count_pair_two_eq_zero
  · intro he
    injection he with h1 h2
    obtain ⟨e1, e2⟩ := member_id_inj nc npc a i a2 j ha2 hj h1
    obtain ⟨e3, e4⟩ := member_id_inj nc npc a i2 a3 k ha3np hk h2
    omega
  · intro he
    injection he with h1 h2
    obtain ⟨e1, e2⟩ := member_id_inj nc npc a i a3 j ha3np hj h1
    obtain ⟨e3, e4⟩ := member_id_inj nc npc a i2 a2 k ha2 hk h2
    omega

theorem mm_pairs_count_one (nc npc i j k : ℕ) (hi : i < nc) (hj : j < npc)
    (hk : k < npc) (hne : j ≠ k) :
    (SmartHome.member_member_pairs nc npc).count
      (SmartHome.member_id nc npc i j, SmartHome.member_id nc npc i k) = 1 := by
  have houter : ∀ a, a < nc → a ≠ i →
      (((List.range npc).flatMap fun j2 =>
        (List.range' (j2 + 1) (npc - (j2 + 1))).flatMap fun k2 =>
          [(SmartHome.member_id nc npc a j2, SmartHome.member_id nc npc a k2),
           (SmartHome.member_id nc npc a k2, SmartHome.member_id nc npc a j2)]).count
        (SmartHome.member_id nc npc i j, SmartHome.member_id nc npc i k)) = 0 := by
    intro a ha hne2
    apply count_flatMap_range_zero
    intro a2 ha2
    apply count_flatMap_range'_zero
    intro a3 h1a h2a
    have ha3np : a3 < npc := by omega
    apply count_pair_two_eq_zero
    · intro he
      injection he with h1 h2
      obtain ⟨e1, e2⟩ := member_id_inj nc npc a i a2 j ha2 hj h1
      omega
    · intro he
      injection he with h1 h2
      obtain ⟨e1, e2⟩ := member_id_inj nc npc a i a3 j ha3np hj h1
      omega
  rcases Nat.lt_or_ge j k with hlt | hge
  · unfold SmartHome.member_member_pairs
    rw [count_flatMap_range_single nc _ _ i hi houter]
    rw [count_flatMap_range_single npc _ _ j hj ?_]
    · rw [count_flatMap_range'_single (j + 1) (npc - (j + 1)) _ _ k
        (by omega) (by omega) ?_]
      · apply count_pair_two_first
        · rfl
        · intro he
          injection he with h1 h2
          obtain ⟨e1, e2⟩ := member_id_inj nc npc i i k j hk hj h1
          omega
      · intro a ha1 ha2 hne2
        have hanp : a < npc := by omega
        apply count_pair_two_eq_zero
        · intro he
          injection he with h1 h2
          obtain ⟨e1, e2⟩ := member_id_inj nc npc i i a k hanp hk h2
          omega
        · intro he
          injection he with h1 h2
          obtain ⟨e1, e2⟩ := member_id_inj nc npc i i a j hanp hj h1
          omega
    · intro a ha hne2
      apply count_flatMap_range'_zero
      intro a2 h1a h2a
      have ha2np : a2 < npc := by omega
      apply count_pair_two_eq_zero
      · intro he
        injection he with h1 h2
        obtain ⟨e1, e2⟩ := member_id_inj nc npc i i a j ha hj h1
        omega
      · intro he
        injection he with h1 h2
        obtain ⟨e1, e2⟩ := member_id_inj nc npc i i a2 j ha2np hj h1
        obtain ⟨e3, e4⟩ := member_id_inj nc npc i i a k ha hk h2
        omega
  · have hkj : k < j := by omega
    unfold SmartHome.member_member_pairs
    rw [count_flatMap_range_single nc _ _ i hi houter]
    rw [count_flatMap_range_single npc _ _ k hk ?_]
    · rw [count_flatMap_range'_single (k + 1) (npc - (k + 1)) _ _ j
        (by omega) (by omega) ?_]
      · apply count_pair_two_second
        · intro he
          injection he with h1 h2
          obtain ⟨e1, e2⟩ := member_id_inj nc npc i i k j hk hj h1
          omega
        · rfl
      · intro a ha1 ha2 hne2
        have hanp : a < npc := by omega
        apply count_pair_two_eq_zero
        · intro he
          injection he with h1 h2
          obtain ⟨e1, e2⟩ := member_id_inj nc npc i i k j hk hj h1
          omega
        · intro he
          injection he with h1 h2
          obtain ⟨e1, e2⟩ := member_id_inj nc npc i i a j hanp hj h1
          omega
    · intro a ha hne2
      apply count_flatMap_range'_zero
      intro a2 h1a h2a
      have ha2np : a2 < npc := by omega
      apply count_pair_two_eq_zero
      · intro he
        injection he with h1 h2
        obtain ⟨e1, e2⟩ := member_id_inj nc npc i i a j ha hj h1
        obtain ⟨e3, e4⟩ := member_id_inj nc npc i i a2 k ha2np hk h2
        omega
      · intro he
        injection he with h1 h2
        obtain ⟨e3, e4⟩ := member_id_inj nc npc i i a k ha hk h2
        omega

/-- C2: in the static connection list, for every `clusterCount ≥ 1` and
`perClusterCount ≥ 0`: each ordered same-cluster member pair `j ≠ k` occurs
exactly once (so each unordered pair occurs exactly twice, once per
direction); no connection joins member nodes of different clusters (any
member indices, equal ones included); each relay is connected with each of
its own members and with no member of another cluster (one link per
direction); and the gateway is connected with each relay (one link per
direction). -/
theorem c2_static_connections_multiplicities (nc npc : ℕ) (hnc : 1 ≤ nc) :
    (∀ i j k, i < nc → j < npc → k < npc → j ≠ k →
      SmartHome.pair_count nc npc (SmartHome.member_id nc npc i j)
        (SmartHome.member_id nc npc i k) = 1) ∧
    (∀ i i2 j k, i < nc → i2 < nc → i ≠ i2 → j < npc → k < npc →
      SmartHome.pair_count nc npc (SmartHome.member_id nc npc i j)
        (SmartHome.member_id nc npc i2 k) = 0) ∧
    (∀ i j, i < nc → j < npc →
      SmartHome.pair_count nc npc (i + 2)
          (SmartHome.member_id nc npc i j) = 1 ∧
      SmartHome.pair_count nc npc (SmartHome.member_id nc npc i j)
          (i + 2) = 1) ∧
    (∀ i i2 j, i < nc → i2 < nc → i ≠ i2 → j < npc →
      SmartHome.pair_count nc npc (i2 + 2)
          (SmartHome.member_id nc npc i j) = 0 ∧
      SmartHome.pair_count nc npc (SmartHome.member_id nc npc i j)
          (i2 + 2) = 0) ∧
    (∀ i, i < nc →
      SmartHome.pair_count nc npc 1 (i + 2) = 1 ∧
      SmartHome.pair_count nc npc (i + 2) 1 = 1) := by
  refine ⟨?_, ?_, ?_, ?_, ?_⟩
  · intro i j k hi hj hk hjk
    have hm_j := member_id_ge nc npc i j
    have hm_k := member_id_ge nc npc i k
    rw [pair_count_decomp,
      gw_pairs_count_zero nc _ _ (Or.inl hm_j),
      rm_pairs_count_zero_members nc npc _ _ hm_j hm_k,
      mm_pairs_count_one nc npc i j k hi hj hk hjk]
  · intro i i2 j k hi hi2 hii hj hk
    have hm_j := member_id_ge nc npc i j
    have hm2 := member_id_ge nc npc i2 k
    rw [pair_count_decomp,
      gw_pairs_count_zero nc _ _ (Or.inl hm_j),
      rm_pairs_count_zero_members nc npc _ _ hm_j hm2,
      mm_pairs_count_cross nc npc i i2 j k hj hk hii]
  · intro i j hi hj
    have hm_j := member_id_ge nc npc i j
    constructor
    · rw [pair_count_decomp,
        gw_pairs_count_zero nc _ _ (Or.inr hm_j),
        rm_pairs_count_to nc npc i j hi hj,
        mm_pairs_count_zero_low nc npc _ _ (Or.inl (by omega))]
    · rw [pair_count_decomp,
        gw_pairs_count_zero nc _ _ (Or.inl hm_j),
        rm_pairs_count_from nc npc i j hi hj,
        mm_pairs_count_zero_low nc npc _ _ (Or.inr (by omega))]
  · intro i i2 j hi hi2 hii hj
    have hm_j := member_id_ge nc npc i j
    constructor
    · rw [pair_count_decomp,
        gw_pairs_count_zero nc _ _ (Or.inr hm_j),
        rm_pairs_count_zero_cross_to nc npc i2 i j hi2 hj (Ne.symm hii),
        mm_pairs_count_zero_low nc npc _ _ (Or.inl (by omega))]
    · rw [pair_count_decomp,
        gw_pairs_count_zero nc _ _ (Or.inl hm_j),
        rm_pairs_count_zero_cross_from nc npc i2 i j hi2 hj (Ne.symm hii),
        mm_pairs_count_zero_low nc npc _ _ (Or.inr (by omega))]
  · intro i hi
    constructor
    · rw [pair_count_decomp,
        gw_pairs_count_to nc i hi,
        rm_pairs_count_zero_one nc npc _ _ (Or.inl rfl),
        mm_pairs_count_zero_low nc npc _ _ (Or.inl (by omega))]
    · rw [pair_count_decomp,
        gw_pairs_count_from nc i hi,
        rm_pairs_count_zero_one nc npc _ _ (Or.inr rfl),
        mm_pairs_count_zero_low nc npc _ _ (Or.inr (by omega))]

/-- Witness for C2 at `nc = 2`, `npc = 1`: a per-cluster count of one, where
the gateway↔relay and relay↔member stars and the cross-cluster exclusions
are all non-vacuous. -/
theorem c2_static_connections_multiplicities_witness :
    (1 ≤ 2) ∧
    ((∀ i j k, i < 2 → j < 1 → k < 1 → j ≠ k →
      SmartHome.pair_count 2 1 (SmartHome.member_id 2 1 i j)
        (SmartHome.member_id 2 1 i k) = 1) ∧
    (∀ i i2 j k, i < 2 → i2 < 2 → i ≠ i2 → j < 1 → k < 1 →
      SmartHome.pair_count 2 1 (SmartHome.member_id 2 1 i j)
        (SmartHome.member_id 2 1 i2 k) = 0) ∧
    (∀ i j, i < 2 → j < 1 →
      SmartHome.pair_count 2 1 (i + 2)
          (SmartHome.member_id 2 1 i j) = 1 ∧
      SmartHome.pair_count 2 1 (SmartHome.member_id 2 1 i j)
          (i + 2) = 1) ∧
    (∀ i i2 j, i < 2 → i2 < 2 → i ≠ i2 → j < 1 →
      SmartHome.pair_count 2 1 (i2 + 2)
          (SmartHome.member_id 2 1 i j) = 0 ∧
      SmartHome.pair_count 2 1 (SmartHome.member_id 2 1 i j)
          (i2 + 2) = 0) ∧
    (∀ i, i < 2 →
      SmartHome.pair_count 2 1 1 (i + 2) = 1 ∧
      SmartHome.pair_count 2 1 (i + 2) 1 = 1)) :=
  ⟨by decide, c2_static_connections_multiplicities 2 1 (by decide)⟩

/-! ## C3 -/

theorem usable_run_results_filter_reserved (metric : String) (default : ℚ)
    (rr : RunResults) :
    SmartHome.usable_run_results metric default
      (rr.filter fun nd => !decide (reserved_node nd.1))
      = SmartHome.usable_run_results metric default rr := by
  induction rr with
  | nil => rfl
  | cons nd rest ih =>
    obtain ⟨node, stats⟩ := nd
    by_cases h : reserved_node node
    · simp [List.filter_cons, SmartHome.usable_run_results, h, ih]
    · simp [List.filter_cons, SmartHome.usable_run_results, h, ih]

theorem prune_cons (run : String) (rr : RunResults) (rest : Results) :
    SmartHome.prune ((run, rr) :: rest)
      = if run = "aggregate-stats" then SmartHome.prune rest
        else (run, rr.filter fun nd => !decide (reserved_node nd.1))
          :: SmartHome.prune rest := by
  by_cases h : run = "aggregate-stats" <;> simp [SmartHome.prune, List.filter_cons, h]

theorem extract_metric_exp_prune (metric : String) (default : ℚ)
    (agg : List ℚ → ℚ) (t : Results) :
    SmartHome.extract_metric_exp metric default agg (SmartHome.prune t)
      = SmartHome.extract_metric_exp metric default agg t := by
  induction t with
  | nil => rfl
  | cons r rest ih =>
    obtain ⟨run, rr⟩ := r
    rw [prune_cons]
    by_cases h : run = "aggregate-stats"
    · simp [h, SmartHome.extract_metric_exp, ih]
    · simp [h, SmartHome.extract_metric_exp,
        usable_run_results_filter_reserved, ih]

/-- C3: `extract_metric` skips the `"aggregate-stats"` run and the
`"global-stats"`/`"1"` node rows, substitutes the caller's default for a
null value, and reduces the remaining node values with the aggregation
function: on one run with nodes `{2: 5, 3: null}`, `defaultValue = 10` and
`mean`, the per-run result is `7.5`; and the output is invariant under
removing the reserved rows, so the values stored there never influence it. -/
theorem c3_extract_metric_spec :
    SmartHome.extract_metric
      [[("run1",
         [("1", [("m", some 999)]),
          ("2", [("m", some 5)]),
          ("3", [("m", none)]),
          ("global-stats", [])])]]
      "m" 10 SmartHome.mean = some [[15 / 2]] ∧
    (∀ (exps : List Results) (metric : String) (default : ℚ)
      (agg : List ℚ → ℚ),
      SmartHome.extract_metric (exps.map SmartHome.prune) metric default agg
        = SmartHome.extract_metric exps metric default agg) := by
  constructor
  · simp [SmartHome.extract_metric, SmartHome.extract_metric_exp,
      SmartHome.usable_run_results, reserved_node, List.lookup,
      SmartHome.mean]
    norm_num
  · intro exps metric default agg
    induction exps with
    | nil => rfl
    | cons e rest ih =>
      simp [SmartHome.extract_metric, extract_metric_exp_prune, ih]

/-! ## C4 -/

theorem usable_run_results2_decomp (m1 m2 : String) (rr : RunResults) :
    SmartHome.usable_run_results2 m1 m2 rr
      = (SmartHome.collect_raw m1 rr).bind fun l1 =>
          (SmartHome.collect_raw m2 rr).map fun l2 => (l1, l2) := by
  induction rr with
  | nil => rfl
  | cons nd rest ih =>
    obtain ⟨node, stats⟩ := nd
    by_cases h : reserved_node node
    · simp [SmartHome.usable_run_results2, SmartHome.collect_raw, h, ih]
    · rcases hr1 : SmartHome.collect_raw m1 rest with _ | l1 <;>
        rcases hr2 : SmartHome.collect_raw m2 rest with _ | l2 <;>
          rw [hr1, hr2] at ih <;>
            rcases hl1 : stats.lookup m1 with _ | (_ | q1) <;>
              rcases hl2 : stats.lookup m2 with _ | (_ | q2) <;>
                simp [SmartHome.usable_run_results2, SmartHome.collect_raw,
                  h, hl1, hl2, hr1, hr2, ih]

/-- C4: `extract_metrics` collects, per run, two parallel node-level value
sequences with the same run/node filtering as single-metric extraction
(second conjunct: the paired collector equals two independent collectors),
reduces each with the aggregation function and combines the two per-run
aggregates: with `metric1 = lost`, `metric2 = recv`, the PDR combine
function, per-node pairs `(0,10)` and `(2,8)` and `mean` aggregation
(giving `(1, 9)`), the per-run result is `90`. -/
theorem c4_extract_metrics_spec :
    SmartHome.extract_metrics
      [[("aggregate-stats", [("2", [("lost", some 7), ("recv", some 7)])]),
        ("r",
         [("1", [("lost", some 1000), ("recv", some 0)]),
          ("2", [("lost", some 0), ("recv", some 10)]),
          ("3", [("lost", some 2), ("recv", some 8)]),
          ("global-stats", [])])]]
      "lost" "recv" SmartHome.pdr_combine SmartHome.mean = some [[90]] ∧
    (∀ (m1 m2 : String) (rr : RunResults),
      SmartHome.usable_run_results2 m1 m2 rr
        = (SmartHome.collect_raw m1 rr).bind fun l1 =>
            (SmartHome.collect_raw m2 rr).map fun l2 => (l1, l2)) := by
  constructor
  · simp [SmartHome.extract_metrics, SmartHome.extract_metrics_exp,
      SmartHome.usable_run_results2, reserved_node, List.lookup,
      SmartHome.mean, SmartHome.pdr_combine]
    norm_num
  · exact usable_run_results2_decomp

/-! ## C5 -/

/-- C5: the y-axis bounds computed by `plot`: the upper bound is always
`ceil(global max) + 1`; the lower bound is `floor(global min) - 1` exactly
when the title contains `"PDR"`, and exactly `0` otherwise, no matter how
large the values are. -/
theorem c5_plot_bounds_spec (title : String) (results : List (List ℚ))
    (stats : List (ℚ × ℚ × ℚ)) (mn mx : ℚ)
    (hs : SmartHome.plot_stats results = some stats)
    (hmn : (stats.map fun s => s.2.1).min? = some mn)
    (hmx : (stats.map fun s => s.2.2).max? = some mx) :
    SmartHome.plot_bounds title results
      = some (if title_has_PDR title then ⌊mn⌋ - 1 else 0, ⌈mx⌉ + 1) ∧
    (title_has_PDR title = true →
      SmartHome.plot_bounds title results = some (⌊mn⌋ - 1, ⌈mx⌉ + 1)) ∧
    (title_has_PDR title = false →
      SmartHome.plot_bounds title results = some (0, ⌈mx⌉ + 1)) := by
  have hb : SmartHome.plot_bounds title results
      = some (if title_has_PDR title then ⌊mn⌋ - 1 else 0, ⌈mx⌉ + 1) := by
    simp only [SmartHome.plot_bounds, hs, hmn, hmx]
  refine ⟨hb, fun hp => ?_, fun hp => ?_⟩ <;> rw [hb] <;> simp [hp]

/-- Witness for C5 at the non-PDR title `"x"` and `results = [[2]]`. -/
theorem c5_plot_bounds_spec_witness :
    (SmartHome.plot_stats [[(2 : ℚ)]] = some [(2, 2, 2)] ∧
     ([((2 : ℚ), (2 : ℚ), (2 : ℚ))].map fun s => s.2.1).min? = some 2 ∧
     ([((2 : ℚ), (2 : ℚ), (2 : ℚ))].map fun s => s.2.2).max? = some 2) ∧
    (SmartHome.plot_bounds "x" [[(2 : ℚ)]]
        = some (if title_has_PDR "x" then ⌊(2 : ℚ)⌋ - 1 else 0, ⌈(2 : ℚ)⌉ + 1) ∧
     (title_has_PDR "x" = true →
       SmartHome.plot_bounds "x" [[(2 : ℚ)]]
         = some (⌊(2 : ℚ)⌋ - 1, ⌈(2 : ℚ)⌉ + 1)) ∧
     (title_has_PDR "x" = false →
       SmartHome.plot_bounds "x" [[(2 : ℚ)]] = some (0, ⌈(2 : ℚ)⌉ + 1))) := by
  have hs : SmartHome.plot_stats [[(2 : ℚ)]] = some [(2, 2, 2)] := by
    simp [SmartHome.plot_stats, SmartHome.exp_stats]
  have hmn : ([((2 : ℚ), (2 : ℚ), (2 : ℚ))].map fun s => s.2.1).min? = some 2 := by
    simp [List.min?]
  have hmx : ([((2 : ℚ), (2 : ℚ), (2 : ℚ))].map fun s => s.2.2).max? = some 2 := by
    simp [List.max?]
  exact ⟨⟨hs, hmn, hmx⟩,
    c5_plot_bounds_spec "x" [[(2 : ℚ)]] [(2, 2, 2)] 2 2 hs hmn hmx⟩

/-! ## C6 -/

theorem foldl_min_le (x : ℚ) (xs : List ℚ) : xs.foldl min x ≤ x := by
  induction xs generalizing x with
  | nil => simp
  | cons y ys ih =>
    simp only [List.foldl_cons]
    exact le_trans (ih (min x y)) (min_le_left x y)

theorem le_foldl_max (x : ℚ) (xs : List ℚ) : x ≤ xs.foldl max x := by
  induction xs generalizing x with
  | nil => simp
  | cons y ys ih =>
    simp only [List.foldl_cons]
    exact le_trans (le_max_left x y) (ih (max x y))

theorem foldl_min_mul_le_sum (x : ℚ) (xs : List ℚ) :
    (xs.foldl min x) * (1 + (xs.length : ℚ)) ≤ x + xs.sum := by
  induction xs generalizing x with
  | nil => simp
  | cons y ys ih =>
    simp only [List.foldl_cons, List.length_cons, List.sum_cons]
    have h1 := ih (min x y)
    have h2 := foldl_min_le (min x y) ys
    have h3 : min x y ≤ x := min_le_left x y
    have h4 : min x y ≤ y := min_le_right x y
    push_cast
    push_cast at h1
    nlinarith [h1, h2, h3, h4]

theorem sum_le_foldl_max_mul (x : ℚ) (xs : List ℚ) :
    x + xs.sum ≤ (xs.foldl max x) * (1 + (xs.length : ℚ)) := by
  induction xs generalizing x with
  | nil => simp
  | cons y ys ih =>
    simp only [List.foldl_cons, List.length_cons, List.sum_cons]
    have h1 := ih (max x y)
    have h2 := le_foldl_max (max x y) ys
    have h3 : x ≤ max x y := le_max_left x y
    have h4 : y ≤ max x y := le_max_right x y
    push_cast
    push_cast at h1
    nlinarith [h1, h2, h3, h4]

theorem exp_stats_mean_between (r : List ℚ) (m mn mx : ℚ)
    (h : SmartHome.exp_stats r = some (m, mn, mx)) : mn ≤ m ∧ m ≤ mx := by
  cases r with
  | nil => cases h
  | cons x xs =>
    simp only [SmartHome.exp_stats, Option.some.injEq, Prod.mk.injEq] at h
    obtain ⟨hm, hmn, hmx⟩ := h
    have hlen : (0 : ℚ) < (((x :: xs).length : ℕ) : ℚ) := by
      simp only [List.length_cons]
      push_cast
      positivity
    constructor
    · rw [← hmn, ← hm, le_div_iff₀ hlen]
      have := foldl_min_mul_le_sum x xs
      simp only [List.length_cons, List.sum_cons]
      push_cast
      push_cast at this
      linarith
    · rw [← hmx, ← hm, div_le_iff₀ hlen]
      have := sum_le_foldl_max_mul x xs
      simp only [List.length_cons, List.sum_cons]
      push_cast
      push_cast at this
      linarith

theorem plot_stats_mem (results : List (List ℚ)) (stats : List (ℚ × ℚ × ℚ))
    (h : SmartHome.plot_stats results = some stats) :
    ∀ s ∈ stats, ∃ r, SmartHome.exp_stats r = some s := by
  induction results generalizing stats with
  | nil =>
    simp only [SmartHome.plot_stats, Option.some.injEq] at h
    subst h
    simp
  | cons r rest ih =>
    simp only [SmartHome.plot_stats] at h
    rcases he : SmartHome.exp_stats r with _ | s0
    · rw [he] at h; cases h
    · rw [he] at h
      rcases hrest : SmartHome.plot_stats rest with _ | st0
      · rw [hrest] at h; cases h
      · rw [hrest] at h
        simp only [Option.map_some', Option.some.injEq] at h
        subst h
        intro s hsm
        rcases List.mem_cons.mp hsm with hcase | hcase
        · exact ⟨r, hcase ▸ he⟩
        · exact ih st0 hrest s hcase

/-- C6: the error-bar half-lengths computed by `plot` are never negative:
for every experiment's `(mean, min, max)` triple, `mean - min ≥ 0` and
`max - mean ≥ 0`, since the arithmetic mean of a nonempty sequence lies
between its minimum and its maximum. -/
theorem c6_plot_yerr_nonneg (results : List (List ℚ)) (ls hs : List ℚ)
    (h1 : SmartHome.min_values_yerr results = some ls)
    (h2 : SmartHome.max_values_yerr results = some hs) :
    (∀ v ∈ ls, 0 ≤ v) ∧ (∀ v ∈ hs, 0 ≤ v) := by
  unfold SmartHome.min_values_yerr at h1
  unfold SmartHome.max_values_yerr at h2
  rcases hst : SmartHome.plot_stats results with _ | stats
  · rw [hst] at h1
    cases h1
  · rw [hst] at h1 h2
    simp only [Option.map_some', Option.some.injEq] at h1 h2
    subst h1
    subst h2
    have hmem := plot_stats_mem results stats hst
    constructor
    · intro v hv
      obtain ⟨s, hsmem, hveq⟩ := List.mem_map.mp hv
      obtain ⟨r, hr⟩ := hmem s hsmem
      obtain ⟨hlo, _⟩ := exp_stats_mean_between r s.1 s.2.1 s.2.2 hr
      rw [← hveq]
      linarith
    · intro v hv
      obtain ⟨s, hsmem, hveq⟩ := List.mem_map.mp hv
      obtain ⟨r, hr⟩ := hmem s hsmem
      obtain ⟨_, hhi⟩ := exp_stats_mean_between r s.1 s.2.1 s.2.2 hr
      rw [← hveq]
      linarith

/-! ## C7 -/

theorem lookup_setOpt_self (m : List (String × OptValue)) (k : String)
    (v : OptValue) : (setOpt m k v).lookup k = some v := by
  induction m with
  | nil => simp [setOpt, List.lookup]
  | cons kv rest ih =>
    obtain ⟨k1, v1⟩ := kv
    by_cases h : k1 = k
    · simp [setOpt, h, List.lookup]
    · have hb : (k == k1) = false := beq_eq_false_iff_ne.mpr fun he => h he.symm
      simp [setOpt, h, hb, List.lookup, ih]

theorem lookup_setOpt_ne (m : List (String × OptValue)) (k k2 : String)
    (v : OptValue) (h : k2 ≠ k) :
    (setOpt m k v).lookup k2 = m.lookup k2 := by
  have hb : (k2 == k) = false := beq_eq_false_iff_ne.mpr h
  induction m with
  | nil => simp [setOpt, List.lookup, hb]
  | cons kv rest ih =>
    obtain ⟨k1, v1⟩ := kv
    by_cases hk : k1 = k
    · subst hk
      simp [setOpt, List.lookup, hb]
    · simp [setOpt, hk, List.lookup, ih]

theorem lookup_foldl_setOpt_not_mem (opts : List (String × OptValue))
    (m : List (String × OptValue)) (k : String)
    (h : k ∉ opts.map Prod.fst) :
    (opts.foldl (fun acc kv => setOpt acc kv.1 kv.2) m).lookup k
      = m.lookup k := by
  induction opts generalizing m with
  | nil => rfl
  | cons kv rest ih =>
    obtain ⟨k1, v1⟩ := kv
    simp only [List.foldl_cons]
    have hne : k ≠ k1 := by
      intro he
      exact h (by simp [he])
    rw [ih (setOpt m k1 v1) fun hm => h (by simp [hm])]
    exact lookup_setOpt_ne m k1 k v1 hne

theorem lookup_foldl_setOpt_mem (opts : List (String × OptValue))
    (m : List (String × OptValue)) (k : String) (v : OptValue)
    (hnd : (opts.map Prod.fst).Nodup) (hmem : (k, v) ∈ opts) :
    (opts.foldl (fun acc kv => setOpt acc kv.1 kv.2) m).lookup k = some v := by
  induction opts generalizing m with
  | nil => cases hmem
  | cons kv rest ih =>
    obtain ⟨k1, v1⟩ := kv
    simp only [List.foldl_cons]
    simp only [List.map_cons, List.nodup_cons] at hnd
    rcases List.mem_cons.mp hmem with he | hmem2
    · injection he with e1 e2
      subst e1
      subst e2
      rw [lookup_foldl_setOpt_not_mem rest (setOpt m k v) k hnd.1]
      exact lookup_setOpt_self m k v
    · exact ih (setOpt m k1 v1) hnd.2 hmem2

/-- C7 counterexample: the claim "for every key present in the caller's
options argument, the constructed experiment's options hold the caller's
value" fails at `Experiment(1, 0, {"NUM_NODES": "999"})`: the constructed
options hold the topology-derived `"2"`, not the caller's `"999"`, because
`__init__` writes the derived keys *after* the caller loop. -/
theorem c7_counterexample :
    (SmartHome.experiment_options 1 0 (fun _ => (0, 0)) (fun _ _ => (0, 0))
        [("NUM_NODES", OptValue.s "999")]).lookup "NUM_NODES"
      = some (OptValue.s "2") ∧
    ¬ (SmartHome.experiment_options 1 0 (fun _ => (0, 0)) (fun _ _ => (0, 0))
        [("NUM_NODES", OptValue.s "999")]).lookup "NUM_NODES"
      = some (OptValue.s "999") := by
  constructor
  · rfl
  · decide

/-- C7 (amended): the options are built as defaults, then the caller's
entries in order, then the topology-derived entries.  Hence a caller key
*other than* the derived keys (`NUM_NODES`/`CONNECTIONS`/`POSITIONS` in the
static script, the three node counts plus `CONNECTIONS`/`POSITIONS` in the
mobility script) keeps the caller's value, while the derived keys always
hold the topology-derived value, overriding the caller. -/
theorem c7_options_precedence_amended :
    (∀ (nc npc : ℕ) (relXY : ℕ → ℤ × ℤ) (memXY : ℕ → ℕ → ℤ × ℤ)
       (opts : List (String × OptValue)) (k : String) (v : OptValue),
       (opts.map Prod.fst).Nodup → (k, v) ∈ opts →
       k ≠ "NUM_NODES" → k ≠ "CONNECTIONS" → k ≠ "POSITIONS" →
       (SmartHome.experiment_options nc npc relXY memXY opts).lookup k
         = some v) ∧
    (∀ (nc npc : ℕ) (relXY : ℕ → ℤ × ℤ) (memXY : ℕ → ℕ → ℤ × ℤ)
       (opts : List (String × OptValue)),
       (SmartHome.experiment_options nc npc relXY memXY opts).lookup
           "NUM_NODES"
         = some (OptValue.s (toString (1 + nc + nc * npc)))) ∧
    (∀ (nc npc : ℕ) (relXY : ℕ → ℤ × ℤ) (statXY : ℕ → ℕ → ℤ × ℤ)
       (opts : List (String × OptValue)) (k : String) (v : OptValue),
       (opts.map Prod.fst).Nodup → (k, v) ∈ opts →
       k ≠ "NUM_ROUTER_NODES" → k ≠ "NUM_STATIC_LEAF_NODES" →
       k ≠ "NUM_MOBILE_LEAF_NODES" → k ≠ "CONNECTIONS" → k ≠ "POSITIONS" →
       (Mobility.experiment_options nc npc relXY statXY opts).lookup k
         = some v) ∧
    (∀ (nc npc : ℕ) (relXY : ℕ → ℤ × ℤ) (statXY : ℕ → ℕ → ℤ × ℤ)
       (opts : List (String × OptValue)),
       (Mobility.experiment_options nc npc relXY statXY opts).lookup
           "NUM_ROUTER_NODES"
         = some (OptValue.s (toString (1 + nc)))) := by
  refine ⟨?_, ?_, ?_, ?_⟩
  · intro nc npc relXY memXY opts k v hnd hmem h1 h2 h3
    simp only [SmartHome.experiment_options]
    rw [lookup_setOpt_ne _ _ _ _ h3, lookup_setOpt_ne _ _ _ _ h2,
      lookup_setOpt_ne _ _ _ _ h1]
    exact lookup_foldl_setOpt_mem opts _ k v hnd hmem
  · intro nc npc relXY memXY opts
    simp only [SmartHome.experiment_options]
    rw [lookup_setOpt_ne _ _ _ _ (by decide), lookup_setOpt_ne _ _ _ _ (by decide)]
    exact lookup_setOpt_self _ _ _
  · intro nc npc relXY statXY opts k v hnd hmem h1 h2 h3 h4 h5
    simp only [Mobility.experiment_options]
    rw [lookup_setOpt_ne _ _ _ _ h5, lookup_setOpt_ne _ _ _ _ h4,
      lookup_setOpt_ne _ _ _ _ h3, lookup_setOpt_ne _ _ _ _ h2,
      lookup_setOpt_ne _ _ _ _ h1]
    exact lookup_foldl_setOpt_mem opts _ k v hnd hmem
  · intro nc npc relXY statXY opts
    simp only [Mobility.experiment_options]
    rw [lookup_setOpt_ne _ _ _ _ (by decide), lookup_setOpt_ne _ _ _ _ (by decide),
      lookup_setOpt_ne _ _ _ _ (by decide), lookup_setOpt_ne _ _ _ _ (by decide)]
    exact lookup_setOpt_self _ _ _

/-- Witness for the amended C7 at `nc = 1`, `npc = 0`, caller options
`{"FOO": "bar"}`. -/
theorem c7_options_precedence_amended_witness :
    (([("FOO", OptValue.s "bar")].map Prod.fst).Nodup ∧
     ("FOO", OptValue.s "bar") ∈ [("FOO", OptValue.s "bar")]) ∧
    (SmartHome.experiment_options 1 0 (fun _ => (0, 0)) (fun _ _ => (0, 0))
        [("FOO", OptValue.s "bar")]).lookup "FOO" = some (OptValue.s "bar") ∧
    (Mobility.experiment_options 1 0 (fun _ => (0, 0)) (fun _ _ => (0, 0))
        [("FOO", OptValue.s "bar")]).lookup "FOO" = some (OptValue.s "bar") :=
  ⟨by decide,
   c7_options_precedence_amended.1 1 0 (fun _ => (0, 0)) (fun _ _ => (0, 0))
     [("FOO", OptValue.s "bar")] "FOO" (OptValue.s "bar") (by decide)
     (by decide) (by decide) (by decide) (by decide),
   (c7_options_precedence_amended.2.2.1) 1 0 (fun _ => (0, 0))
     (fun _ _ => (0, 0)) [("FOO", OptValue.s "bar")] "FOO" (OptValue.s "bar")
     (by decide) (by decide) (by decide) (by decide) (by decide) (by decide)
     (by decide)⟩

/-! ## C8 -/

/-- C8 counterexample: the claim "config rendering fails whenever a
placeholder required by the template has no corresponding option key" is
false: with template `"%A% %B%"` and options `{A: 1}`, `generate_config_file`
*succeeds* and writes a partially-substituted file whose text still contains
the literal `%B%` token. -/
theorem c8_counterexample :
    SmartHome.generate_config_file "e" (some "%A% %B%") [("A", TmplValue.n 1)]
      = some ("config-e.json", "1 %B%") ∧
    (SmartHome.generate_config_file "e" (some "%A% %B%")
        [("A", TmplValue.n 1)]).isSome = true := by
  constructor
  · decide
  · decide

/-- C8 (amended): config rendering fails (and the experiment's processing
aborts) exactly when the template cannot be read; a placeholder with no
corresponding option key does *not* cause a failure — substitution simply
leaves the literal `%KEY%` token in the written output (empty options leave
the template unchanged; an unmatched `%X%` survives rendering verbatim). -/
theorem c8_config_render_amended :
    (∀ (name : String) (options : List (String × TmplValue)),
      SmartHome.generate_config_file name none options = none) ∧
    (∀ (name t : String) (options : List (String × TmplValue)),
      SmartHome.generate_config_file name (some t) options
        = some ("config-" ++ name ++ ".json", render_template t options)) ∧
    (∀ t : String, render_template t [] = t) ∧
    render_template "%X%" [("A", TmplValue.n 1)] = "%X%" := by
  refine ⟨fun name options => rfl, fun name t options => rfl,
    fun t => rfl, ?_⟩
  decide

/-! ## C9 -/

theorem withIdsFrom_map_id (s : ℕ) (coords : List (ℤ × ℤ)) :
    (Mobility.withIdsFrom s coords).map Position.id
      = List.range' s coords.length := by
  induction coords generalizing s with
  | nil => rfl
  | cons c rest ih =>
    simp only [Mobility.withIdsFrom, List.map_cons, List.length_cons,
      List.range'_succ, ih]

theorem withIdsFrom_getElem? (s : ℕ) (coords : List (ℤ × ℤ)) (n : ℕ) :
    (Mobility.withIdsFrom s coords)[n]?
      = coords[n]?.map fun c => ⟨s + n, c.1, c.2⟩ := by
  induction coords generalizing s n with
  | nil => simp [Mobility.withIdsFrom]
  | cons c rest ih =>
    cases n with
    | zero => simp [Mobility.withIdsFrom]
    | succ n2 =>
      simp only [Mobility.withIdsFrom, List.getElem?_cons_succ, ih]
      have harith : s + 1 + n2 = s + (n2 + 1) := by omega
      rw [harith]

/-- C9: in the mobile variant, each cluster's members split into
`staticCount = floor(perClusterCount*2/3)` and
`mobileCount = perClusterCount - staticCount`; NodeIds are allocated
contiguously in the order gateway, relays, all static members
(cluster-major), all mobile members (cluster-major); and every mobile
member's initial position equals its cluster's relay position (the same
rounded relay coordinates `relXY i`). -/
theorem c9_mobile_positions_shape (nc npc ns nm : ℕ) (relXY : ℕ → ℤ × ℤ)
    (statXY : ℕ → ℕ → ℤ × ℤ) (hnc : 1 ≤ nc)
    (hsplit : Mobility.get_num_mobile_per_cluster npc = (nm, ns)) :
    ns = npc * 2 / 3 ∧
    nm = npc - npc * 2 / 3 ∧
    (Mobility.generate_positions nc npc relXY statXY).map Position.id
      = List.range' 1 (1 + nc + nc * ns + nc * nm) ∧
    (Mobility.generate_positions nc npc relXY statXY)[0]? = some ⟨1, 0, 0⟩ ∧
    (∀ i, i < nc →
      (Mobility.generate_positions nc npc relXY statXY)[1 + i]?
        = some ⟨i + 2, (relXY i).1, (relXY i).2⟩) ∧
    (∀ i j, i < nc → j < ns →
      (Mobility.generate_positions nc npc relXY statXY)[1 + nc + i * ns + j]?
        = some ⟨2 + nc + i * ns + j, (statXY i j).1, (statXY i j).2⟩) ∧
    (∀ i j, i < nc → j < nm →
      (Mobility.generate_positions nc npc relXY
          statXY)[1 + nc + nc * ns + i * nm + j]?
        = some ⟨2 + nc + nc * ns + i * nm + j,
            (relXY i).1, (relXY i).2⟩) := by
  have hns : ns = npc * 2 / 3 := by
    unfold Mobility.get_num_mobile_per_cluster at hsplit
    injection hsplit with h1 h2
    omega
  have hnm : nm = npc - npc * 2 / 3 := by
    unfold Mobility.get_num_mobile_per_cluster at hsplit
    injection hsplit with h1 h2
    omega
  have hgen : Mobility.generate_positions nc npc relXY statXY
      = Mobility.withIdsFrom 1
        ((0, 0) ::
          ((List.range nc).map relXY ++
           (((List.range nc).flatMap fun i => (List.range ns).map (statXY i)) ++
            ((List.range nc).flatMap fun i =>
              (List.range nm).map fun _ => relXY i)))) := by
    unfold Mobility.generate_positions
    rw [hsplit]
  have hstatlen : ∀ i, i < nc →
      ((List.range ns).map (statXY i)).length = ns := by
    intro i _
    simp
  have hmoblen : ∀ i, i < nc →
      ((List.range nm).map fun _ : ℕ => relXY i).length = nm := by
    intro i _
    simp
  have hlenB : ((List.range nc).flatMap fun i =>
      (List.range ns).map (statXY i)).length = nc * ns :=
    flatMap_const_length nc ns _ hstatlen
  have hlenC : ((List.range nc).flatMap fun i =>
      (List.range nm).map fun _ : ℕ => relXY i).length = nc * nm :=
    flatMap_const_length nc nm _ hmoblen
  refine ⟨hns, hnm, ?_, ?_, ?_, ?_, ?_⟩
  · rw [hgen, withIdsFrom_map_id]
    congr 1
    simp only [List.length_cons, List.length_append, List.length_map,
      List.length_range, hlenB, hlenC]
    omega
  · rw [hgen, withIdsFrom_getElem?]
    simp
  · intro i hi
    rw [hgen, withIdsFrom_getElem?]
    have h1 : (1 + i) = i + 1 := by omega
    rw [h1]
    simp only [List.getElem?_cons_succ]
    rw [List.getElem?_append, if_pos (by simp [hi])]
    rw [List.getElem?_map, List.getElem?_range hi]
    simp only [Option.map_some']
    congr 2
    omega
  · intro i j hi hj
    rw [hgen, withIdsFrom_getElem?]
    have h1 : (1 + nc + i * ns + j) = (nc + (i * ns + j)) + 1 := by omega
    rw [h1]
    simp only [List.getElem?_cons_succ]
    rw [List.getElem?_append_right (by simp)]
    simp only [List.length_map, List.length_range]
    have h2 : nc + (i * ns + j) - nc = i * ns + j := by omega
    have hidxa : i * ns + j < (i + 1) * ns := by rw [Nat.succ_mul]; omega
    have hidxb : (i + 1) * ns ≤ nc * ns := Nat.mul_le_mul_right ns hi
    rw [h2, List.getElem?_append, if_pos (by rw [hlenB]; omega)]
    rw [flatMap_const_length_getElem? nc ns _ hstatlen i j hi hj]
    rw [List.getElem?_map, List.getElem?_range hj]
    simp only [Option.map_some']
    congr 2
    omega
  · intro i j hi hj
    rw [hgen, withIdsFrom_getElem?]
    have h1 : (1 + nc + nc * ns + i * nm + j)
        = (nc + (nc * ns + (i * nm + j))) + 1 := by omega
    rw [h1]
    simp only [List.getElem?_cons_succ]
    rw [List.getElem?_append_right (by simp)]
    simp only [List.length_map, List.length_range]
    have h2 : nc + (nc * ns + (i * nm + j)) - nc = nc * ns + (i * nm + j) := by
      omega
    rw [h2, List.getElem?_append_right (by rw [hlenB]; omega)]
    rw [hlenB]
    have h3 : nc * ns + (i * nm + j) - nc * ns = i * nm + j := by omega
    rw [h3, flatMap_const_length_getElem? nc nm _ hmoblen i j hi hj]
    rw [List.getElem?_map, List.getElem?_range hj]
    simp only [Option.map_some']
    congr 2
    omega

/-- Witness for C9 at `nc = 2`, `npc = 5` (so `ns = 3`, `nm = 2`) with a
coordinate oracle distinguishing the clusters. -/
theorem c9_mobile_positions_shape_witness :
    (1 ≤ 2 ∧
     Mobility.get_num_mobile_per_cluster 5 = (2, 3)) ∧
    ((3 : ℕ) = 5 * 2 / 3 ∧
     (2 : ℕ) = 5 - 5 * 2 / 3 ∧
     (Mobility.generate_positions 2 5 (fun i => (i, 0))
        (fun _ _ => (9, 9))).map Position.id
       = List.range' 1 (1 + 2 + 2 * 3 + 2 * 2) ∧
     (Mobility.generate_positions 2 5 (fun i => (i, 0))
        (fun _ _ => (9, 9)))[0]? = some ⟨1, 0, 0⟩ ∧
     (∀ i, i < 2 →
       (Mobility.generate_positions 2 5 (fun i => (i, 0))
          (fun _ _ => (9, 9)))[1 + i]? = some ⟨i + 2, ((i : ℤ), (0 : ℤ)).1, ((i : ℤ), (0 : ℤ)).2⟩) ∧
     (∀ i j, i < 2 → j < 3 →
       (Mobility.generate_positions 2 5 (fun i => (i, 0))
          (fun _ _ => (9, 9)))[1 + 2 + i * 3 + j]?
         = some ⟨2 + 2 + i * 3 + j, ((9 : ℤ), (9 : ℤ)).1, ((9 : ℤ), (9 : ℤ)).2⟩) ∧
     (∀ i j, i < 2 → j < 2 →
       (Mobility.generate_positions 2 5 (fun i => (i, 0))
          (fun _ _ => (9, 9)))[1 + 2 + 2 * 3 + i * 2 + j]?
         = some ⟨2 + 2 + 2 * 3 + i * 2 + j, ((i : ℤ), (0 : ℤ)).1, ((i : ℤ), (0 : ℤ)).2⟩)) :=
  ⟨⟨by decide, by decide⟩,
    c9_mobile_positions_shape 2 5 3 2 (fun i => (i, 0)) (fun _ _ => (9, 9))
      (by decide) (by decide)⟩

/-! ## C10 -/

theorem run_totals_eq_usable (metric : String) (default : ℚ)
    (rr : RunResults) (t : ℚ) (n : ℕ) :
    ResultVis.run_totals metric default rr t n
      = (SmartHome.usable_run_results metric default rr).map
          fun l => (t + l.sum, n + l.length) := by
  induction rr generalizing t n with
  | nil => simp [ResultVis.run_totals, SmartHome.usable_run_results]
  | cons nd rest ih =>
    obtain ⟨node, stats⟩ := nd
    by_cases h : reserved_node node
    · simp [ResultVis.run_totals, SmartHome.usable_run_results, h, ih]
    · rcases hl : stats.lookup metric with _ | v
      · simp [ResultVis.run_totals, SmartHome.usable_run_results, h, hl]
      · simp only [ResultVis.run_totals, SmartHome.usable_run_results,
          if_neg h, hl]
        rw [ih (t + v.getD default) (n + 1)]
        rcases hu : SmartHome.usable_run_results metric default rest with _ | l
        · simp [hu]
        · simp only [hu, Option.map_some', Option.some.injEq,
            List.sum_cons, List.length_cons]
          refine Prod.ext ?_ ?_
          · ring
          · omega

theorem usable_run_results_pos (metric : String) (default : ℚ)
    (rr : RunResults) (l : List ℚ)
    (hex : ∃ nd ∈ rr, ¬ reserved_node nd.1)
    (h : SmartHome.usable_run_results metric default rr = some l) :
    0 < l.length := by
  induction rr generalizing l with
  | nil =>
    obtain ⟨nd, hmem, _⟩ := hex
    cases hmem
  | cons nd rest ih =>
    obtain ⟨node, stats⟩ := nd
    by_cases hres : reserved_node node
    · simp only [SmartHome.usable_run_results, if_pos hres] at h
      obtain ⟨nd2, hmem2, hnr2⟩ := hex
      rcases List.mem_cons.mp hmem2 with he | hmem3
      · exact absurd (he ▸ hres) hnr2
      · exact ih l ⟨nd2, hmem3, hnr2⟩ h
    · simp only [SmartHome.usable_run_results, if_neg hres] at h
      rcases hl : stats.lookup metric with _ | v
      · rw [hl] at h
        cases h
      · rw [hl] at h
        rcases hu : SmartHome.usable_run_results metric default rest with _ | l2
        · rw [hu] at h
          cases h
        · rw [hu] at h
          simp only [Option.map_some', Option.some.injEq] at h
          subst h
          simp

theorem extract_metric_exp_eq (metric : String) (default : ℚ) (t : Results)
    (hruns : ∀ r ∈ t, r.1 ≠ "aggregate-stats" ∧
      ∃ nd ∈ r.2, ¬ reserved_node nd.1) :
    ResultVis.extract_metric_exp metric default t
      = SmartHome.extract_metric_exp metric default SmartHome.mean t := by
  induction t with
  | nil => rfl
  | cons r rest ih =>
    obtain ⟨run, rr⟩ := r
    have hr := hruns (run, rr) (by simp)
    have hrest : ∀ r2 ∈ rest, r2.1 ≠ "aggregate-stats" ∧
        ∃ nd ∈ r2.2, ¬ reserved_node nd.1 :=
      fun r2 hr2 => hruns r2 (by simp [hr2])
    simp only [ResultVis.extract_metric_exp, SmartHome.extract_metric_exp]
    rw [if_neg hr.1, run_totals_eq_usable metric default rr 0 0]
    rcases hu : SmartHome.usable_run_results metric default rr with _ | l
    · simp
    · have hpos := usable_run_results_pos metric default rr l hr.2 hu
      simp only [Option.map_some']
      rw [if_neg (by omega), ih hrest]
      have hm : (0 + l.sum) / (((0 + l.length : ℕ) : ℚ)) = SmartHome.mean l := by
        unfold SmartHome.mean
        rw [if_neg (by omega)]
        norm_num
      rw [hm]

/-- C10 counterexample: the two single-metric extractors are *not* equal on
every loaded results tree: on a tree containing the reserved
`"aggregate-stats"` run, the result-visualization extractor (which skips no
run) also aggregates that run, while the smart-home extractor skips it. -/
theorem c10_counterexample :
    ResultVis.extract_metric
      [[("aggregate-stats", [("2", [("m", some 5)])]),
        ("r1", [("2", [("m", some 1)])])]] "m" 0 = some [[5, 1]] ∧
    SmartHome.extract_metric
      [[("aggregate-stats", [("2", [("m", some 5)])]),
        ("r1", [("2", [("m", some 1)])])]] "m" 0 SmartHome.mean
      = some [[1]] ∧
    ResultVis.extract_metric
      [[("aggregate-stats", [("2", [("m", some 5)])]),
        ("r1", [("2", [("m", some 1)])])]] "m" 0
      ≠ SmartHome.extract_metric
      [[("aggregate-stats", [("2", [("m", some 5)])]),
        ("r1", [("2", [("m", some 1)])])]] "m" 0 SmartHome.mean := by
  have h1 : ResultVis.extract_metric
      [[("aggregate-stats", [("2", [("m", some (5 : ℚ))])]),
        ("r1", [("2", [("m", some 1)])])]] "m" 0 = some [[5, 1]] := by
    simp [ResultVis.extract_metric, ResultVis.extract_metric_exp,
      ResultVis.run_totals, reserved_node, List.lookup]
  have h2 : SmartHome.extract_metric
      [[("aggregate-stats", [("2", [("m", some (5 : ℚ))])]),
        ("r1", [("2", [("m", some 1)])])]] "m" 0 SmartHome.mean
      = some [[1]] := by
    simp [SmartHome.extract_metric, SmartHome.extract_metric_exp,
      SmartHome.usable_run_results, reserved_node, List.lookup,
      SmartHome.mean]
  refine ⟨h1, h2, ?_⟩
  rw [h1, h2]
  simp

/-- C10 (amended): the two single-metric extractors (result-visualization
`extract_metric`, and smart-home `extract_metric` with its default `mean`
aggregation) agree on every results tree that contains no
`"aggregate-stats"` run and in which every run has at least one
non-reserved node row. -/
theorem c10_extract_metric_equiv_amended (exps : List Results)
    (metric : String) (default : ℚ)
    (h : ∀ t ∈ exps, ∀ r ∈ t, r.1 ≠ "aggregate-stats" ∧
      ∃ nd ∈ r.2, ¬ reserved_node nd.1) :
    ResultVis.extract_metric exps metric default
      = SmartHome.extract_metric exps metric default SmartHome.mean := by
  induction exps with
  | nil => rfl
  | cons e rest ih =>
    simp only [ResultVis.extract_metric, SmartHome.extract_metric]
    rw [extract_metric_exp_eq metric default e (h e (by simp)),
      ih fun t ht => h t (by simp [ht])]

/-- Witness for the amended C10 on a one-run, one-node tree. -/
theorem c10_extract_metric_equiv_amended_witness :
    (∀ t ∈ [[("r", [("2", [("m", some (3 : ℚ))])])]], ∀ r ∈ t,
      r.1 ≠ "aggregate-stats" ∧ ∃ nd ∈ r.2, ¬ reserved_node nd.1) ∧
    ResultVis.extract_metric [[("r", [("2", [("m", some (3 : ℚ))])])]] "m" 0
      = SmartHome.extract_metric [[("r", [("2", [("m", some (3 : ℚ))])])]]
          "m" 0 SmartHome.mean :=
  ⟨by decide,
   c10_extract_metric_equiv_amended [[("r", [("2", [("m", some (3 : ℚ))])])]]
     "m" 0 (by decide)⟩

/-- Witness for C6 at `results = [[1, 3]]` (mean 2, min 1, max 3). -/
theorem c6_plot_yerr_nonneg_witness :
    (SmartHome.min_values_yerr [[(1 : ℚ), 3]] = some [1] ∧
     SmartHome.max_values_yerr [[(1 : ℚ), 3]] = some [1]) ∧
    ((∀ v ∈ [(1 : ℚ)], 0 ≤ v) ∧ (∀ v ∈ [(1 : ℚ)], 0 ≤ v)) := by
  have h1 : SmartHome.min_values_yerr [[(1 : ℚ), 3]] = some [1] := by
    simp [SmartHome.min_values_yerr, SmartHome.plot_stats,
      SmartHome.exp_stats]
    norm_num
  have h2 : SmartHome.max_values_yerr [[(1 : ℚ), 3]] = some [1] := by
    simp [SmartHome.max_values_yerr, SmartHome.plot_stats,
      SmartHome.exp_stats]
    norm_num
  exact ⟨⟨h1, h2⟩, c6_plot_yerr_nonneg [[(1 : ℚ), 3]] [1] [1] h1 h2⟩
